import Mathlib

/-!
# A leveled logger with a synchronous and an asynchronous delivery mode

Shallow embedding of `logger.go` (package `logger`).

* Go strings and byte slices are lists of characters (`Bytes`).
* Go `uint` values are natural numbers; the code only compares and stores
  them, so no modular arithmetic is involved.
* Everything the Go code reaches through a pointer or a reference (the
  `io.Writer` sinks, the channels, the mutexes, the `*uint` level cells)
  lives in a heap inside `World`, addressed by natural numbers.
* A goroutine started with `go asyncLogging(w, ch)` is an entry of
  `World.workers`; `runWorker` lets one of them run until it blocks on its
  channel or leaves its loop.
* `os.Exit` and run-time panics end the process: they are recorded in
  `World.status`, and `call` executes nothing once the process is gone.
* There is one calling goroutine, and a call or a turn of a worker is
  atomic: the model does not interleave the statements of two calls. A send
  on a full channel blocks the caller (`Status.sending`) until a worker
  receives; between two turns a worker that has not returned is on its way
  to the receive `<-ch`, and its next turn starts with it.
* The clock, the call stack and the goroutine id are inputs of a log call
  (`Ambient`); `fmt.Sprintf` is modelled for the fragment described below.
-/

namespace Logger

/-- A Go string or byte slice. -/
abbrev Bytes := List Char

/-! ## Severity levels -/

/-- TraceLvl the lowest logging level, good for extra info. -/
def TraceLvl : Nat := 0
/-- DebugLvl development logging level. -/
def DebugLvl : Nat := 1
/-- InfoLvl application logging level. -/
def InfoLvl : Nat := 2
/-- WarningLvl oddities logging level. -/
def WarningLvl : Nat := 3
/-- ErrorLvl errors logging level. -/
def ErrorLvl : Nat := 4
/-- FatalLvl panic logging level. -/
def FatalLvl : Nat := 5

/-- The type of `levelNames`, a Go array `[6]string`. -/
abbrev LevelNames := Fin 6 → Bytes

/-! ## Sinks, channels, workers -/

/-- An `io.Writer`: the lines it was asked to write so far, oldest first,
and whether a write of a given line after a given history returns an error. -/
structure Writer where
  attempts : List Bytes
  fails : List Bytes → Bytes → Bool

/-- The method `Write` of an `io.Writer`: the writer afterwards and whether
the call returned a non-nil error. -/
def Writer.Write (w : Writer) (line : Bytes) : Writer × Bool :=
  ({ w with attempts := w.attempts ++ [line] }, w.fails w.attempts line)

/-- A Go channel of byte slices: the lines sent and not yet received (oldest
first), the capacity given to `make`, and whether `close` was called. A send
finds room while the lines are fewer than the capacity (`World.send`). -/
structure Chan where
  buf : List Bytes
  cap : Nat
  closed : Bool
deriving DecidableEq, Repr

/-- How the goroutine running `asyncLogging` stands. -/
inductive WorkerState where
  /-- Blocked in `<-ch` on an open, empty channel. -/
  | waiting
  /-- Left the loop because the channel was closed and empty. -/
  | drained
  /-- Left the loop because a write returned an error. -/
  | writeFailed
deriving DecidableEq, Repr

/-- Whether the goroutine has returned from `asyncLogging`. -/
def WorkerState.terminated : WorkerState → Bool
  | .waiting => false
  | .drained => true
  | .writeFailed => true

/-- The loop of `asyncLogging` over the lines its channel holds: receive a
line, write it, leave on a write error; on an empty channel leave if it is
closed and block otherwise. Returns the writer, the lines left in the
channel and the state of the goroutine. -/
def asyncLoggingLoop (closed : Bool) : Writer → List Bytes → Writer × List Bytes × WorkerState
  | w, [] => (w, [], if closed then .drained else .waiting)
  | w, line :: rest =>
    match w.Write line with
    | (w1, true) => (w1, rest, .writeFailed)
    | (w1, false) => asyncLoggingLoop closed w1 rest

/-- asyncLogging helper function for run async logger in goroutine. -/
def asyncLogging (w : Writer) (ch : Chan) : Writer × Chan × WorkerState :=
  match asyncLoggingLoop ch.closed w ch.buf with
  | (w1, rest, st) => (w1, { ch with buf := rest }, st)

/-- A goroutine started by `go asyncLogging(writer, channel)`: the address
of its writer, the address of its channel and where it stands. -/
structure Worker where
  sink : Nat
  chan : Nat
  state : WorkerState
deriving DecidableEq, Repr

/-! ## Logger instances and the process -/

/-- The struct `logger`. `synch`, `async`, `mutex` and `level` are
addresses into the heaps of `World`. -/
structure logger where
  synch : Nat
  async : Nat
  mutex : Nat
  asyncFlag : Bool
  level : Nat
deriving DecidableEq, Repr

/-- Where the process stands. -/
inductive Status where
  | running
  /-- The calling goroutine is blocked in `ch <- line` on a full channel:
  the line is in neither the buffer nor the hands of the worker, and the
  call returns only when a receive on `ch` takes it. -/
  | sending (ch : Nat) (line : Bytes)
  /-- The argument of `os.Exit`. -/
  | exited (code : Int)
  /-- A run-time panic (send on a closed channel, nil dereference). -/
  | panicked
  /-- Blocked for ever on a mutex that is never released. -/
  | blocked
deriving DecidableEq, Repr

/-- Whether the process still has goroutines that can go on: it runs, or
its caller waits in a send while the workers go on. -/
def Status.alive : Status → Bool
  | .running => true
  | .sending _ _ => true
  | .exited _ => false
  | .panicked => false
  | .blocked => false

/-- The state of the process. `defaultLogger = none` is the zero value of
the variable `defaultLogger` (every field nil), which it has until `init`
runs; `Initialize` assigns all fields at once, so no other partly-nil value
occurs. `next` is the next free address, used by one `make(chan)`, one
`&sync.Mutex` and one `&level` per constructed logger. -/
structure World where
  writers : Nat → Writer
  chans : Nat → Chan
  locked : Nat → Bool
  levels : Nat → Nat
  next : Nat
  workers : List Worker
  levelNames : LevelNames
  defaultLogger : Option logger
  status : Status

/-- File descriptor 1, the address of `os.Stdout`. -/
def Stdout : Nat := 1

/-- GetLevel return the current logging level. -/
def logger.GetLevel (l : logger) (w : World) : Nat :=
  w.levels l.level

/-- SetLevel change the current logging level. -/
def logger.SetLevel (l : logger) (w : World) (newLevel : Nat) : World :=
  let newLevel := if newLevel > FatalLvl then FatalLvl else newLevel
  { w with levels := Function.update w.levels l.level newLevel }

/-- SetLevelName change the label of level during logging. -/
def SetLevelName (w : World) (level : Nat) (name : Bytes) : World :=
  if h : level > FatalLvl then w
  else { w with levelNames :=
    Function.update w.levelNames ⟨level, by unfold FatalLvl at h; omega⟩ name }

/-! ## A model of `fmt.Sprintf`

The model follows `doPrintf` of the Go package `fmt` character by character.
It is exact for operands of type `int`, `uint64` and `string` and for formats
built from literal text and the directives `%%`, `%d`, `%s`, `%v`, an explicit
argument index `%[n]d`, and a width with or without the flag `0` on `%d`
(`%5d`, `%04d`), including what `fmt` prints for a verb of the wrong type
(`%!d(string=x)`), for a verb without operand (`%!d(MISSING)`), for an index
out of range (`%!d(BADINDEX)`), for a format that ends inside a directive
(`%!(NOVERB)`) and for operands left over (`%!(EXTRA int=3)`). Whatever else
a format contains clears `Printer.exact`; the output is then not meant to
match Go. -/

/-- An operand handed to `fmt.Sprintf` as `interface{}`. -/
inductive Arg where
  | int (n : Int)
  | uint64 (n : Nat)
  | str (s : Bytes)
deriving DecidableEq, Repr

/-- What `reflect.TypeOf(arg).String()` returns. -/
def Arg.typeName : Arg → Bytes
  | .int _ => "int".toList
  | .uint64 _ => "uint64".toList
  | .str _ => "string".toList

/-- The decimal digits of a natural number. -/
def natDigits (n : Nat) : Bytes := Nat.toDigits 10 n

/-- The operand under `%v`. -/
def Arg.default : Arg → Bytes
  | .int n => (if n < 0 then ['-'] else []) ++ natDigits n.natAbs
  | .uint64 n => natDigits n
  | .str s => s

/-- Left padding up to a width. -/
def padLeft (c : Char) (wid : Nat) (s : Bytes) : Bytes :=
  List.replicate (wid - s.length) c ++ s

/-- The verb `%d` on an integer, `fmt.fmtInteger` in base 10: with the flag
`0` and a width the digits are padded with zeros up to the width less the
sign; with a width alone the signed number is padded with spaces. -/
def fmtInteger (zero : Bool) (wid : Option Nat) (neg : Bool) (n : Nat) : Bytes :=
  let sign : Bytes := if neg then ['-'] else []
  match wid with
  | none => sign ++ natDigits n
  | some w =>
    if zero then sign ++ padLeft '0' (w - sign.length) (natDigits n)
    else padLeft ' ' w (sign ++ natDigits n)

/-- Verbs that `fmt` accepts for some operand of the three modelled types
and that the model does not render. -/
def otherVerbs : Bytes := "boOxXcqUTwp".toList

/-- What `fmt` prints for a verb that the type of the operand does not
accept, `fmt.badVerb`: `%!verb(type=value)`. -/
def badVerb (verb : Char) (arg : Arg) : Bytes :=
  "%!".toList ++ [verb] ++ ['('] ++ arg.typeName ++ ['='] ++ arg.default ++ [')']

/-- One operand under one verb, `fmt.printArg`: the text, and whether the
model is exact for it. -/
def printArg (zero : Bool) (wid : Option Nat) (arg : Arg) (verb : Char) : Bytes × Bool :=
  let plain := !zero && wid.isNone
  if verb = 'd' then
    match arg with
    | .int n => (fmtInteger zero wid (decide (n < 0)) n.natAbs, true)
    | .uint64 n => (fmtInteger zero wid false n, true)
    | .str s => (badVerb verb (.str s), plain)
  else if verb = 'v' then (arg.default, plain)
  else if verb = 's' then
    match arg with
    | .str s => (s, plain)
    | .int n => (badVerb verb (.int n), plain)
    | .uint64 n => (badVerb verb (.uint64 n), plain)
  else (badVerb verb arg, plain && !otherVerbs.contains verb)

/-- Where `doPrintf` stands inside the format. -/
inductive Mode where
  /-- Outside a directive. -/
  | text
  /-- After `%` and any number of `0` flags. -/
  | flags (zero : Bool)
  /-- Inside the brackets of an argument index, with the digits read so far. -/
  | index (zero : Bool) (n : Option Nat)
  /-- After the closing bracket of an argument index; `good` is `goodArgNum`. -/
  | indexed (zero : Bool) (good : Bool)
  /-- Reading the digits of a width. -/
  | width (zero : Bool) (wid : Nat)
deriving DecidableEq, Repr

/-- The state of `doPrintf`: the output buffer, `argNum`, `p.reordered`, the
position inside a directive, and whether the format has stayed within the
modelled fragment. -/
structure Printer where
  buf : Bytes
  argNum : Nat
  reordered : Bool
  mode : Mode
  exact : Bool
deriving DecidableEq, Repr

/-- The state at the start of `doPrintf`. -/
def Printer.start : Printer :=
  { buf := [], argNum := 0, reordered := false, mode := .text, exact := true }

/-- Leaving the modelled fragment. -/
def Printer.giveUp (p : Printer) : Printer :=
  { p with mode := .text, exact := false }

/-- The verb at the end of a directive (the `switch` at the end of the loop
of `doPrintf`): `%` is written as such (the model is exact for a plain `%%`),
a bad index gives `BADINDEX`, a verb without operand gives `MISSING`,
otherwise the operand is printed and `argNum` advances. -/
def Printer.verb (a : List Arg) (p : Printer) (zero : Bool) (wid : Option Nat)
    (good : Bool) (c : Char) : Printer :=
  if c = '%' then
    { p with buf := p.buf ++ ['%'], mode := .text,
             exact := p.exact && (!zero && wid.isNone) }
  else if good = false then
    { p with buf := p.buf ++ ("%!".toList ++ [c] ++ "(BADINDEX)".toList), mode := .text }
  else
    match a[p.argNum]? with
    | none =>
      { p with buf := p.buf ++ ("%!".toList ++ [c] ++ "(MISSING)".toList), mode := .text }
    | some arg =>
      { p with buf := p.buf ++ (printArg zero wid arg c).1, argNum := p.argNum + 1,
               mode := .text, exact := p.exact && (printArg zero wid arg c).2 }

/-- Whether a character is a flag, a star or a dot that the model leaves out. -/
def unmodelledMark (c : Char) : Bool :=
  c = '#' || c = '+' || c = '-' || c = ' ' || c = '.' || c = '*'

/-- One character of the format. -/
def Printer.step (a : List Arg) (p : Printer) (c : Char) : Printer :=
  match p.mode with
  | .text =>
    if c = '%' then { p with mode := .flags false }
    else { p with buf := p.buf ++ [c] }
  | .flags zero =>
    if c = '0' then { p with mode := .flags true }
    else if c.isDigit then { p with mode := .width zero (c.toNat - 48) }
    else if c = '[' then { p with mode := .index zero none, reordered := true }
    else if unmodelledMark c then p.giveUp
    else p.verb a zero none true c
  | .index zero n =>
    if c.isDigit then
      let v := n.getD 0 * 10 + (c.toNat - 48)
      if v > 1000000 then p.giveUp else { p with mode := .index zero (some v) }
    else if c = ']' then
      match n with
      | none => p.giveUp
      | some v =>
        if 1 ≤ v ∧ v ≤ a.length then
          { p with argNum := v - 1, mode := .indexed zero true }
        else { p with mode := .indexed zero false }
    else p.giveUp
  | .indexed zero good =>
    if c.isDigit || c = '[' || unmodelledMark c then p.giveUp
    else p.verb a zero none good c
  | .width zero wid =>
    if c.isDigit then
      if wid > 1000000 then p.giveUp
      else { p with mode := .width zero (wid * 10 + (c.toNat - 48)) }
    else if c = '[' || unmodelledMark c then p.giveUp
    else p.verb a zero (some wid) true c

/-- The operands left over, as `fmt` lists them after `%!(EXTRA `. -/
def extraArgs : List Arg → Bytes
  | [] => []
  | [x] => x.typeName ++ ['='] ++ x.default
  | x :: y :: rest => x.typeName ++ ['='] ++ x.default ++ ", ".toList ++ extraArgs (y :: rest)

/-- The end of `doPrintf`: a format that stops inside a directive gives
`%!(NOVERB)`; operands left over are reported unless an argument index was
used. -/
def Printer.finish (a : List Arg) (p : Printer) : Printer :=
  let p1 : Printer :=
    if p.mode = .text then p
    else { p with buf := p.buf ++ "%!(NOVERB)".toList, mode := .text }
  if p1.reordered = false ∧ p1.argNum < a.length then
    { p1 with buf := p1.buf ++ ("%!(EXTRA ".toList ++ extraArgs (a.drop p1.argNum) ++ [')']) }
  else p1

/-- The loop of `doPrintf`: the state after the last character of the
format. -/
def scan (format : Bytes) (a : List Arg) : Printer :=
  format.foldl (Printer.step a) Printer.start

/-- The run of `doPrintf` over a whole format. -/
def doPrintf (format : Bytes) (a : List Arg) : Printer :=
  (scan format a).finish a

/-- The function `fmt.Sprintf`. -/
def Sprintf (format : Bytes) (a : List Arg) : Bytes :=
  (doPrintf format a).buf

/-! ## The line composer -/

/-- What `time.Now()` returned, as read through `Date`, `Clock` and
`Nanosecond`. -/
structure Clock where
  year : Nat
  month : Nat
  day : Nat
  hour : Nat
  min : Nat
  sec : Nat
  nanosecond : Nat
deriving DecidableEq, Repr

/-- What `runtime.Caller(2)` returned: file, line and `ok`. -/
structure Frame where
  file : Bytes
  line : Nat
  ok : Bool
deriving DecidableEq, Repr

/-- What a log call reads from its surroundings: the clock, the stack and
the goroutine id returned by `getGID`. -/
structure Ambient where
  now : Clock
  caller : Frame
  gid : Nat
deriving DecidableEq, Repr

/-- The scan of `strings.LastIndexByte`: the last position of `c` at or
after position `i`, or `best` when there is none. -/
def lastIndexFrom (c : Char) : Bytes → Nat → Int → Int
  | [], _, best => best
  | x :: xs, i, best => lastIndexFrom c xs (i + 1) (if x = c then (i : Int) else best)

/-- The function `strings.LastIndexByte`: the position of the last `c` in
`s`, or `-1`. -/
def LastIndexByte (s : Bytes) (c : Char) : Int :=
  lastIndexFrom c s 0 (-1)

/-- The entry `levelNames[level]`. An index above 5 panics in Go; no caller
passes one, and the model returns the empty string there. -/
def levelName (levelNames : LevelNames) (level : Nat) : Bytes :=
  if h : level < 6 then levelNames ⟨level, h⟩ else []

/-- The format of the time stamp. -/
def timeStampFormat : Bytes := "%04d/%02d/%02d %02d:%02d:%02d.%03d".toList

/-- The format of the fields in front of the message. -/
def headerFormat : Bytes := "%s | %s:%d | %s | %d | ".toList

/-- The time stamp of a line: the `Sprintf` call on the fields of
`time.Now()`, with `msec := now.Nanosecond() / 1e6`. -/
def timeStamp (now : Clock) : Bytes :=
  let msec : Nat := now.nanosecond / 1000000
  Sprintf timeStampFormat
    [.int now.year, .int now.month, .int now.day,
     .int now.hour, .int now.min, .int now.sec, .int msec]

/-- The file name of a line: when `runtime.Caller` succeeded, the bytes of
the path past its last `/`; otherwise the path as returned. -/
def shortFileName (caller : Frame) : Bytes :=
  if caller.ok then
    caller.file.drop (LastIndexByte caller.file '/' + 1).toNat
  else caller.file

/-- The slice `realParameters`: time stamp, file, line, level name and
goroutine id, followed by the operands of the caller. -/
def realParameters (levelNames : LevelNames) (env : Ambient) (level : Nat)
    (parameters : List Arg) : List Arg :=
  [Arg.str (timeStamp env.now), .str (shortFileName env.caller), .int env.caller.line,
   .str (levelName levelNames level), .uint64 env.gid] ++ parameters

/-- The function `loggingLineComposer`: one `Sprintf` call on the header
format, the template of the caller and a newline, joined into one format. -/
def loggingLineComposer (levelNames : LevelNames) (env : Ambient) (format : Bytes)
    (level : Nat) (parameters : List Arg) : Bytes :=
  Sprintf (headerFormat ++ format ++ ['\n']) (realParameters levelNames env level parameters)

/-! ## The logging calls -/

/-- The statement `ch <- line`: a panic on a closed channel; with room in
the buffer the line joins it and the statement returns; on a full buffer
(always, for capacity 0) the caller blocks with the line in its hands until
a receive on the channel takes it (`World.handOver`). -/
def World.send (w : World) (ch : Nat) (line : Bytes) : World :=
  if (w.chans ch).closed then { w with status := .panicked }
  else if (w.chans ch).buf.length < (w.chans ch).cap then
    { w with chans :=
      Function.update w.chans ch { w.chans ch with buf := (w.chans ch).buf ++ [line] } }
  else { w with status := .sending ch line }

/-- A call of `Write` on the writer at an address; the error is dropped. -/
def World.write (w : World) (sink : Nat) (line : Bytes) : World :=
  { w with writers := Function.update w.writers sink ((w.writers sink).Write line).1 }

/-- The method `logLine`: in async mode the line is sent on the channel;
otherwise the mutex is taken, the line written and the mutex released. -/
def logger.logLine (l : logger) (w : World) (line : Bytes) : World :=
  if l.asyncFlag = true then
    w.send l.async line
  else if w.locked l.mutex then { w with status := .blocked }
  else
    let w1 := { w with locked := Function.update w.locked l.mutex true }
    let w2 := w1.write l.synch line
    { w2 with locked := Function.update w2.locked l.mutex false }

/-- Print logs ignoring level restrictions (TraceLvl). -/
def logger.Print (l : logger) (w : World) (env : Ambient) (format : Bytes)
    (parameters : List Arg) : World :=
  l.logLine w (loggingLineComposer w.levelNames env format TraceLvl parameters)

/-- Trace logs extra informations (TraceLvl). -/
def logger.Trace (l : logger) (w : World) (env : Ambient) (format : Bytes)
    (parameters : List Arg) : World :=
  if w.levels l.level > TraceLvl then w
  else l.logLine w (loggingLineComposer w.levelNames env format TraceLvl parameters)

/-- Debug logs development informations (DebugLvl). -/
def logger.Debug (l : logger) (w : World) (env : Ambient) (format : Bytes)
    (parameters : List Arg) : World :=
  if w.levels l.level > DebugLvl then w
  else l.logLine w (loggingLineComposer w.levelNames env format DebugLvl parameters)

/-- Info logs application informations (InfoLvl). -/
def logger.Info (l : logger) (w : World) (env : Ambient) (format : Bytes)
    (parameters : List Arg) : World :=
  if w.levels l.level > InfoLvl then w
  else l.logLine w (loggingLineComposer w.levelNames env format InfoLvl parameters)

/-- Warning logs oddities informations (WarningLvl). -/
def logger.Warning (l : logger) (w : World) (env : Ambient) (format : Bytes)
    (parameters : List Arg) : World :=
  if w.levels l.level > WarningLvl then w
  else l.logLine w (loggingLineComposer w.levelNames env format WarningLvl parameters)

/-- Error logs problems informations (ErrorLvl). -/
def logger.Error (l : logger) (w : World) (env : Ambient) (format : Bytes)
    (parameters : List Arg) : World :=
  if w.levels l.level > ErrorLvl then w
  else l.logLine w (loggingLineComposer w.levelNames env format ErrorLvl parameters)

/-- Fatal logs critical informations (FatalLvl): the line is written under
the mutex, then `os.Exit(-1)` ends the process; the deferred `Unlock` does
not run. -/
def logger.Fatal (l : logger) (w : World) (env : Ambient) (format : Bytes)
    (parameters : List Arg) : World :=
  let line := loggingLineComposer w.levelNames env format FatalLvl parameters
  if w.locked l.mutex then { w with status := .blocked }
  else
    let w1 := { w with locked := Function.update w.locked l.mutex true }
    let w2 := w1.write l.synch line
    { w2 with status := .exited (-1) }

/-- The method `SetWriter`. Its receiver is a copy of the logger, so the
assignment to `l.synch` is lost when the method returns: the mutex is taken
and released and nothing else changes. -/
def logger.SetWriter (l : logger) (w : World) (_sink : Nat) : World :=
  if w.locked l.mutex then { w with status := .blocked }
  else
    let w1 := { w with locked := Function.update w.locked l.mutex true }
    { w1 with locked := Function.update w1.locked l.mutex false }

/-! ## Construction -/

/-- The statements shared by `NewLogger` and `Initialize`: a channel is
made, `go asyncLogging(writer, channel)` starts a goroutine on it, a level
cell holding `InfoLvl` and a mutex are allocated. Returns the world and the
logger value. -/
def World.construct (w : World) (writer : Nat) (asyncFlag : Bool) (bufferingSize : Nat) :
    World × logger :=
  let a := w.next
  ({ w with
      chans := Function.update w.chans a { buf := [], cap := bufferingSize, closed := false }
      workers := w.workers ++ [{ sink := writer, chan := a, state := .waiting }]
      levels := Function.update w.levels a InfoLvl
      locked := Function.update w.locked a false
      next := a + 1 },
   { synch := writer, async := a, mutex := a, asyncFlag := asyncFlag, level := a })

/-- NewLogger initialize a new logger. -/
def NewLogger (w : World) (writer : Nat) (asyncFlag : Bool) (bufferingSize : Nat) :
    World × logger :=
  w.construct writer asyncFlag bufferingSize

/-- The statement `close(ch)`: the channel keeps the lines it holds and is
marked closed; a goroutine blocked in a send on it panics; `none` is the
panic of closing a closed channel. -/
def World.close (w : World) (ch : Nat) : Option World :=
  if (w.chans ch).closed then none
  else some { w with
    chans := Function.update w.chans ch { w.chans ch with closed := true }
    status :=
      match w.status with
      | .sending c line => if c = ch then .panicked else .sending c line
      | st => st }

/-- The statements of `Initialize` after the `if`: the construction and the
assignment to `defaultLogger`. -/
def World.install (w : World) (writer : Nat) (asyncFlag : Bool) (bufferingSize : Nat) : World :=
  let (w1, l) := w.construct writer asyncFlag bufferingSize
  { w1 with defaultLogger := some l }

/-- Initialize initialize the current logger. -/
def Initialize (w : World) (writer : Nat) (asyncFlag : Bool) (bufferingSize : Nat) : World :=
  match w.defaultLogger with
  | some old =>
    match w.close old.async with
    | none => { w with status := .panicked }
    | some w1 => w1.install writer asyncFlag bufferingSize
  | none => w.install writer asyncFlag bufferingSize

/-- The world before any package initialisation: empty heaps, no goroutine,
`levelNames` and `defaultLogger` at their zero values. -/
def World.boot (writers : Nat → Writer) : World :=
  { writers := writers
    chans := fun _ => { buf := [], cap := 0, closed := false }
    locked := fun _ => false
    levels := fun _ => 0
    next := 0
    workers := []
    levelNames := fun _ => []
    defaultLogger := none
    status := .running }

/-- The function `init` of the package. -/
def init (w : World) : World :=
  let names0 := w.levelNames
  let names1 := Function.update names0 ⟨TraceLvl, by decide⟩ "TRACE".toList
  let names2 := Function.update names1 ⟨DebugLvl, by decide⟩ "DEBUG".toList
  let names3 := Function.update names2 ⟨InfoLvl, by decide⟩ "INFO".toList
  let names4 := Function.update names3 ⟨WarningLvl, by decide⟩ "WARNING".toList
  let names5 := Function.update names4 ⟨ErrorLvl, by decide⟩ "ERROR".toList
  let names6 := Function.update names5 ⟨FatalLvl, by decide⟩ "FATAL".toList
  Initialize { w with levelNames := names6 } Stdout false 0

/-! ## The functions of the package on the default logger -/

/-- The default logger, or a nil dereference while it holds its zero value. -/
def World.onDefault (w : World) (k : logger → World) : World :=
  match w.defaultLogger with
  | some l => k l
  | none => { w with status := .panicked }

/-- GetLevel return the current logging level. -/
def GetLevel (w : World) : Option Nat :=
  w.defaultLogger.map fun l => l.GetLevel w

/-- SetLevel change the current logging level. -/
def SetLevel (w : World) (newLevel : Nat) : World :=
  w.onDefault fun l => l.SetLevel w newLevel

/-- Print logs ignoring level restrictions (TraceLvl). -/
def Print (w : World) (env : Ambient) (format : Bytes) (parameters : List Arg) : World :=
  w.onDefault fun l =>
    l.logLine w (loggingLineComposer w.levelNames env format TraceLvl parameters)

/-- Trace logs extra informations (TraceLvl). -/
def Trace (w : World) (env : Ambient) (format : Bytes) (parameters : List Arg) : World :=
  w.onDefault fun l =>
    if w.levels l.level > TraceLvl then w
    else l.logLine w (loggingLineComposer w.levelNames env format TraceLvl parameters)

/-- Debug logs development informations (DebugLvl). -/
def Debug (w : World) (env : Ambient) (format : Bytes) (parameters : List Arg) : World :=
  w.onDefault fun l =>
    if w.levels l.level > DebugLvl then w
    else l.logLine w (loggingLineComposer w.levelNames env format DebugLvl parameters)

/-- Info logs application informations (InfoLvl). -/
def Info (w : World) (env : Ambient) (format : Bytes) (parameters : List Arg) : World :=
  w.onDefault fun l =>
    if w.levels l.level > InfoLvl then w
    else l.logLine w (loggingLineComposer w.levelNames env format InfoLvl parameters)

/-- Warning logs oddities informations (WarningLvl). -/
def Warning (w : World) (env : Ambient) (format : Bytes) (parameters : List Arg) : World :=
  w.onDefault fun l =>
    if w.levels l.level > WarningLvl then w
    else l.logLine w (loggingLineComposer w.levelNames env format WarningLvl parameters)

/-- Error logs problems informations (ErrorLvl). -/
def Error (w : World) (env : Ambient) (format : Bytes) (parameters : List Arg) : World :=
  w.onDefault fun l =>
    if w.levels l.level > ErrorLvl then w
    else l.logLine w (loggingLineComposer w.levelNames env format ErrorLvl parameters)

/-- Fatal logs critical informations (FatalLvl). -/
def Fatal (w : World) (env : Ambient) (format : Bytes) (parameters : List Arg) : World :=
  w.onDefault fun l =>
    let line := loggingLineComposer w.levelNames env format FatalLvl parameters
    if w.locked l.mutex then { w with status := .blocked }
    else
      let w1 := { w with locked := Function.update w.locked l.mutex true }
      let w2 := w1.write l.synch line
      { w2 with status := .exited (-1) }

/-! ## Goroutines and the run of a process -/

/-- A receive on the open channel `ch` while the caller is blocked in a
send on it: the line of the caller comes behind the lines of the buffer (it
takes the slot the receive frees, or is received itself when the buffer is
empty) and the send returns. -/
def World.handOver (w : World) (ch : Nat) : World :=
  match w.status with
  | .sending c line =>
    if c = ch ∧ (w.chans ch).closed = false then
      { w with
          chans := Function.update w.chans ch
            { w.chans ch with buf := (w.chans ch).buf ++ [line] }
          status := .running }
    else w
  | _ => w

/-- Lets the goroutine at position `i` of `workers` run `asyncLogging` until
it blocks on its channel or returns. A goroutine that has returned does
nothing more. The turn of a goroutine still in its loop starts with the
receive `<-ch`, which releases a caller blocked in a send on its channel. -/
def runWorker (w : World) (i : Nat) : World :=
  match w.workers[i]? with
  | none => w
  | some k =>
    if k.state.terminated then w
    else
      match asyncLogging ((w.handOver k.chan).writers k.sink) ((w.handOver k.chan).chans k.chan) with
      | (wr, ch, st) =>
        { w.handOver k.chan with
            writers := Function.update (w.handOver k.chan).writers k.sink wr
            chans := Function.update (w.handOver k.chan).chans k.chan ch
            workers := (w.handOver k.chan).workers.set i { k with state := st } }

/-- The six calls that go through `logLine`. -/
inductive Op where
  | Print | Trace | Debug | Info | Warning | Error
deriving DecidableEq, Repr

/-- The level constant a call passes to `loggingLineComposer` and, except for
`Print`, compares the threshold with. -/
def Op.severity : Op → Nat
  | .Print => TraceLvl
  | .Trace => TraceLvl
  | .Debug => DebugLvl
  | .Info => InfoLvl
  | .Warning => WarningLvl
  | .Error => ErrorLvl

/-- The method of a logger named by an `Op`. -/
def logger.log (l : logger) (op : Op) (w : World) (env : Ambient) (format : Bytes)
    (parameters : List Arg) : World :=
  match op with
  | .Print => l.Print w env format parameters
  | .Trace => l.Trace w env format parameters
  | .Debug => l.Debug w env format parameters
  | .Info => l.Info w env format parameters
  | .Warning => l.Warning w env format parameters
  | .Error => l.Error w env format parameters

/-- The function of the package named by an `Op`. -/
def log (op : Op) (w : World) (env : Ambient) (format : Bytes)
    (parameters : List Arg) : World :=
  match op with
  | .Print => Print w env format parameters
  | .Trace => Trace w env format parameters
  | .Debug => Debug w env format parameters
  | .Info => Info w env format parameters
  | .Warning => Warning w env format parameters
  | .Error => Error w env format parameters

/-- What a process can do next: a call on a logger handle, a call of a
function of the package, or a turn of one of the goroutines. -/
inductive Call where
  | log (l : logger) (op : Op) (env : Ambient) (format : Bytes) (parameters : List Arg)
  | fatal (l : logger) (env : Ambient) (format : Bytes) (parameters : List Arg)
  | setLevel (l : logger) (newLevel : Nat)
  | pkgLog (op : Op) (env : Ambient) (format : Bytes) (parameters : List Arg)
  | pkgFatal (env : Ambient) (format : Bytes) (parameters : List Arg)
  | pkgSetLevel (newLevel : Nat)
  | setLevelName (level : Nat) (name : Bytes)
  | newLogger (writer : Nat) (asyncFlag : Bool) (bufferingSize : Nat)
  | replaceDefault (writer : Nat) (asyncFlag : Bool) (bufferingSize : Nat)
  | worker (i : Nat)

/-- One call of a process. While the caller is blocked in a send only the
workers take turns. A process that has exited, panicked or is blocked on a
mutex executes nothing. -/
def call (w : World) (c : Call) : World :=
  if w.status = .running then
    match c with
    | .log l op env format parameters => l.log op w env format parameters
    | .fatal l env format parameters => l.Fatal w env format parameters
    | .setLevel l newLevel => l.SetLevel w newLevel
    | .pkgLog op env format parameters => log op w env format parameters
    | .pkgFatal env format parameters => Fatal w env format parameters
    | .pkgSetLevel newLevel => SetLevel w newLevel
    | .setLevelName level name => SetLevelName w level name
    | .newLogger writer asyncFlag bufferingSize =>
      (NewLogger w writer asyncFlag bufferingSize).1
    | .replaceDefault writer asyncFlag bufferingSize =>
      Initialize w writer asyncFlag bufferingSize
    | .worker i => runWorker w i
  else
    match w.status, c with
    | .sending _ _, .worker i => runWorker w i
    | _, _ => w

/-- A sequence of calls. -/
def run (w : World) (calls : List Call) : World :=
  calls.foldl call w

/-! ## Templates that compose -/

/-- The modes outside an explicit argument index. -/
def Mode.plain : Mode → Bool
  | .text => true
  | .flags _ => true
  | .width _ _ => true
  | .index _ _ => false
  | .indexed _ _ => false

/-- A template and operands for which `fmt` stays within the modelled
fragment, uses no explicit argument index, does not stop inside a directive
and leaves no operand over. -/
def plainCall (format : Bytes) (a : List Arg) : Bool :=
  (scan format a).exact && decide ((scan format a).mode = .text) &&
    !(scan format a).reordered && decide (a.length ≤ (scan format a).argNum)

/-- The state `q` of a run over the joined format with the operands
`realParameters` follows the state `p` of the run over the template alone
with the operands of the caller: same mode, the output behind the header
`H`, five operands ahead. -/
structure Sim (H : Bytes) (p q : Printer) : Prop where
  buf : q.buf = H ++ p.buf
  argNum : q.argNum = p.argNum + 5
  reordered : q.reordered = p.reordered
  mode : q.mode = p.mode
  exact : q.exact = p.exact
  plain : p.mode.plain = true

/-- A number padded with zeros on the left, as `%0Nd` prints it. -/
def zeroPad (wid n : Nat) : Bytes :=
  padLeft '0' wid (natDigits n)

/-- The header in front of the message, as the format contract writes it:
`YYYY/MM/DD hh:mm:ss.mmm | FILE:LINE | LEVELNAME | CONTEXT_ID | `. -/
def lineHeader (levelNames : LevelNames) (env : Ambient) (level : Nat) : Bytes :=
  (zeroPad 4 env.now.year ++ ['/'] ++ zeroPad 2 env.now.month ++ ['/'] ++
      zeroPad 2 env.now.day ++ [' '] ++ zeroPad 2 env.now.hour ++ [':'] ++
      zeroPad 2 env.now.min ++ [':'] ++ zeroPad 2 env.now.sec ++ ['.'] ++
      zeroPad 3 (env.now.nanosecond / 1000000)) ++
    " | ".toList ++ shortFileName env.caller ++ [':'] ++ natDigits env.caller.line ++
    " | ".toList ++ levelName levelNames level ++ " | ".toList ++ natDigits env.gid ++
    " | ".toList

/-! ## The states a process reaches -/

/-- What holds in every state a process reaches from its start: while it
runs or waits in a send no mutex is held between two calls, and the channel
of the default logger is open and lies below the next free address. -/
structure World.Sound (w : World) : Prop where
  free : w.status.alive = true → ∀ m, w.locked m = false
  defaultOpen : ∀ l, w.defaultLogger = some l →
    (w.chans l.async).closed = false ∧ l.async < w.next

/-- The channel at address `a` is open, allocated, and not the channel of
the default logger. -/
structure World.Keeps (w : World) (a : Nat) : Prop where
  isOpen : (w.chans a).closed = false
  allocated : a < w.next
  notDefault : ∀ l, w.defaultLogger = some l → l.async ≠ a

/-- The second world has the same closed channels, the same next free
address and the same default logger as the first. -/
def World.sameShape (w v : World) : Prop :=
  (∀ a, (v.chans a).closed = (w.chans a).closed) ∧ v.next = w.next ∧
    v.defaultLogger = w.defaultLogger

/-- Whether a call is an emitting call through a logger value in async mode
whose channel is `a`. The constructors hand out one logger per channel, so
for the channel of a logger created in sync mode no call is of this kind. -/
def Call.sendsOn (a : Nat) : Call → Bool
  | .log l _ _ _ _ => l.asyncFlag && decide (l.async = a)
  | _ => false

/-- The channel at address `a` is allocated and empty, no caller is blocked
in a send on it, and if it is the channel of the default logger, the default
logger is in sync mode. -/
structure World.Idle (w : World) (a : Nat) : Prop where
  empty : (w.chans a).buf = []
  allocated : a < w.next
  syncDefault : ∀ l, w.defaultLogger = some l → l.async = a → l.asyncFlag = false
  notSending : ∀ line, w.status ≠ .sending a line

/-- What happens on a channel while its worker runs: a producer sends a
line, or the worker makes one pass through the loop of `asyncLogging`. -/
inductive QueueEvent where
  | send (line : Bytes)
  | pass
deriving DecidableEq, Repr

/-- One event on a writer and a channel: a sent line joins the channel; a
pass of the worker receives the oldest line, if there is one, and writes it. -/
def QueueEvent.apply : Writer × Chan → QueueEvent → Writer × Chan
  | (w, ch), .send line => (w, { ch with buf := ch.buf ++ [line] })
  | (w, ch), .pass =>
    match ch.buf with
    | [] => (w, ch)
    | line :: rest => ((w.Write line).1, { ch with buf := rest })

/-- The lines sent by a sequence of events, in order. -/
def sentLines : List QueueEvent → List Bytes
  | [] => []
  | .send line :: rest => line :: sentLines rest
  | .pass :: rest => sentLines rest

/-! ## Sample inputs -/

/-- Writers that have written nothing yet and never fail. -/
def quietWriters : Nat → Writer :=
  fun _ => { attempts := [], fails := fun _ _ => false }

/-- A writer whose second write fails. -/
def secondWriteFails : Writer :=
  { attempts := [], fails := fun h _ => decide (h.length = 1) }

/-- Writers on which every write fails. -/
def brokenWriters : Nat → Writer :=
  fun _ => { attempts := [], fails := fun _ _ => true }

/-- The logger returned by `NewLogger(w2, true, 1)` right after `init`. -/
def stuckLogger : logger :=
  { synch := 2, async := 1, mutex := 1, asyncFlag := true, level := 1 }

/-- The process right after the package initialisation. -/
def startWorld : World := init (World.boot quietWriters)

/-- The value of `defaultLogger` right after the package initialisation. -/
def startLogger : logger :=
  { synch := Stdout, async := 0, mutex := 0, asyncFlag := false, level := 0 }

/-- The default logger after `Initialize(w2, true, 4)` in `startWorld`, where
`w2` is the writer at address 2. -/
def busyLogger : logger :=
  { synch := 2, async := 1, mutex := 1, asyncFlag := true, level := 1 }

/-- A call made at `2026/11/04 09:05:00.007` from line 12 of
`/home/dev/app/main.go` by goroutine 7. -/
def sampleEnv : Ambient :=
  { now := { year := 2026, month := 11, day := 4, hour := 9, min := 5, sec := 0,
             nanosecond := 7654321 }
    caller := { file := "/home/dev/app/main.go".toList, line := 12, ok := true }
    gid := 7 }

/-- A process whose default logger is in async mode and holds two lines in
its channel: `Initialize(w2, true, 4)` after `init`, then two calls of
`Print`, and no turn of the worker yet. -/
def busyWorld : World :=
  Print (Print (Initialize startWorld 2 true 4) sampleEnv "one".toList [])
    sampleEnv "two %d".toList [.int 2]

/-- A process on failing writers: `NewLogger(w2, true, 1)` after `init`, a
first `Print` (buffered), a turn of the worker (the write fails and the
worker returns), a second `Print` (buffered). -/
def stuckWorld : World :=
  stuckLogger.Print
    (runWorker
      (stuckLogger.Print (NewLogger (init (World.boot brokenWriters)) 2 true 1).1
        sampleEnv "a".toList [])
      1)
    sampleEnv "b".toList []

/-! ## Thresholds -/

/-- C2: after `SetLevel(n)` on a logger, `GetLevel()` on the same logger
returns `min(n, FatalLvl)`, for every value `n`. -/
theorem getLevel_setLevel (l : logger) (w : World) (n : Nat) :
    l.GetLevel (l.SetLevel w n) = min n FatalLvl := by
  unfold logger.GetLevel logger.SetLevel
  simp only [Function.update_same]
  split
  · omega
  · omega

/-- C10: `SetLevelName(v, s)` returns the world unchanged when `v` is above
`FatalLvl`; otherwise it changes the name of level `v` to `s` and nothing
else: the five other names, the level cells of all loggers (so every
threshold) and the rest of the state stay as they were. -/
theorem setLevelName_frame (w : World) (v : Nat) (s : Bytes) :
    SetLevelName w v s =
        (if v > FatalLvl then w
         else { w with levelNames := fun u => if u.val = v then s else w.levelNames u }) ∧
      (SetLevelName w v s).levels = w.levels ∧
      ∀ l : logger, l.GetLevel (SetLevelName w v s) = l.GetLevel w := by
  have key : SetLevelName w v s =
      (if v > FatalLvl then w
       else { w with levelNames := fun u => if u.val = v then s else w.levelNames u }) := by
    unfold SetLevelName
    split
    · rfl
    · congr 1
      funext u
      simp [Function.update_apply, Fin.ext_iff]
  refine ⟨key, ?_, ?_⟩
  · rw [key]; split <;> rfl
  · intro l
    rw [key]; unfold logger.GetLevel; split <;> rfl

/-! ## Filtering -/

/-- Taking and releasing a free mutex leaves the lock table as it was. -/
theorem update_lock_unlock (f : Nat → Bool) (m : Nat) (h : f m = false) :
    Function.update (Function.update f m true) m false = f := by
  rw [Function.update_idem, ← h, Function.update_eq_self]

/-- The functions of the package are the methods of the default logger. -/
theorem log_eq_default (op : Op) (w : World) (l : logger) (env : Ambient) (format : Bytes)
    (parameters : List Arg) (h : w.defaultLogger = some l) :
    log op w env format parameters = l.log op w env format parameters := by
  cases op <;>
    simp only [log, Print, Trace, Debug, Info, Warning, Error, World.onDefault, h,
      logger.log, logger.Print, logger.Trace, logger.Debug, logger.Info, logger.Warning,
      logger.Error]

/-- A call through `logLine` goes on to `logLine` if it is `Print` or the
threshold is at most its severity, and returns at once otherwise. -/
theorem logger_log_eq (l : logger) (op : Op) (w : World) (env : Ambient) (format : Bytes)
    (parameters : List Arg) :
    l.log op w env format parameters =
      if op = .Print ∨ w.levels l.level ≤ op.severity then
        l.logLine w (loggingLineComposer w.levelNames env format op.severity parameters)
      else w := by
  cases op <;>
    simp only [logger.log, logger.Print, logger.Trace, logger.Debug, logger.Info,
      logger.Warning, logger.Error, Op.severity, true_or, if_true, false_or, reduceCtorEq,
      gt_iff_lt, ← not_lt, ite_not]

/-- The method `logLine` on a logger whose channel is open (async mode) or
whose mutex is free (sync mode): in async mode one line more in the buffer
if it has room, and otherwise the caller blocked in the send with the buffer
as it was; in sync mode one write more on the sink; nothing else. -/
theorem logLine_eq (l : logger) (w : World) (line : Bytes)
    (hopen : l.asyncFlag = true → (w.chans l.async).closed = false)
    (hfree : l.asyncFlag = false → w.locked l.mutex = false) :
    l.logLine w line =
      if l.asyncFlag then
        if (w.chans l.async).buf.length < (w.chans l.async).cap then
          { w with chans := Function.update w.chans l.async <|
              { w.chans l.async with buf := (w.chans l.async).buf ++ [line] } }
        else { w with status := .sending l.async line }
      else
        { w with writers := Function.update w.writers l.synch <|
            { w.writers l.synch with attempts := (w.writers l.synch).attempts ++ [line] } } := by
  unfold logger.logLine World.send World.write Writer.Write
  cases hflag : l.asyncFlag
  · simp [hfree hflag, update_lock_unlock]
  · simp [hopen hflag]

/-- While the caller is blocked in a send, only the workers take turns. -/
theorem call_of_sending (v : World) (c : Call) (ch : Nat) (line : Bytes)
    (h : v.status = .sending ch line) :
    call v c = match c with
      | .worker i => runWorker v i
      | _ => v := by
  unfold call
  rw [h]
  cases c <;> simp

/-- The turn of a worker that is still in its loop releases a caller blocked
in a send on its channel: the turn goes as if the line had been in the
buffer, behind the others, and the call had returned. -/
theorem runWorker_releases (v : World) (ch : Nat) (line : Bytes) (i : Nat) (k : Worker)
    (hk : v.workers[i]? = some k) (hch : k.chan = ch) (hlive : k.state.terminated = false)
    (hopen : (v.chans ch).closed = false) :
    runWorker { v with status := .sending ch line } i =
      runWorker { v with
        chans := Function.update v.chans ch
          { v.chans ch with buf := (v.chans ch).buf ++ [line] }
        status := .running } i := by
  subst hch
  simp [runWorker, hk, hlive, World.handOver, hopen]

/-- A caller blocked in a send on a channel whose workers have all returned
stays blocked whatever happens next, and the channel stays as it is. -/
theorem sender_stuck (calls : List Call) :
    ∀ (v : World) (ch : Nat) (line : Bytes), v.status = .sending ch line →
      (∀ k ∈ v.workers, k.chan = ch → k.state.terminated = true) →
      (run v calls).status = .sending ch line ∧ (run v calls).chans ch = v.chans ch := by
  induction calls with
  | nil => intro v ch line h _; exact ⟨h, rfl⟩
  | cons c rest ih =>
    intro v ch line h hdead
    have hstep : (call v c).status = .sending ch line ∧ (call v c).chans ch = v.chans ch ∧
        (∀ k ∈ (call v c).workers, k.chan = ch → k.state.terminated = true) := by
      rw [call_of_sending v c ch line h]
      cases c with
      | worker i =>
        show (runWorker v i).status = _ ∧ (runWorker v i).chans ch = _ ∧
          ∀ k ∈ (runWorker v i).workers, k.chan = ch → k.state.terminated = true
        cases hk : v.workers[i]? with
        | none =>
          have hrun : runWorker v i = v := by simp [runWorker, hk]
          rw [hrun]
          exact ⟨h, rfl, hdead⟩
        | some k =>
          by_cases hterm : k.state.terminated = true
          · have hrun : runWorker v i = v := by simp [runWorker, hk, hterm]
            rw [hrun]
            exact ⟨h, rfl, hdead⟩
          · have hmem : k ∈ v.workers := List.getElem?_mem hk
            have hne : k.chan ≠ ch := fun hc => hterm (hdead k hmem hc)
            have hhand : v.handOver k.chan = v := by
              unfold World.handOver
              rw [h]
              simp only
              rw [if_neg]
              rintro ⟨hc, _⟩
              exact hne hc.symm
            have hrun : runWorker v i =
                { v with
                    writers := Function.update v.writers k.sink
                      (asyncLogging (v.writers k.sink) (v.chans k.chan)).1
                    chans := Function.update v.chans k.chan
                      (asyncLogging (v.writers k.sink) (v.chans k.chan)).2.1
                    workers := v.workers.set i
                      { k with state := (asyncLogging (v.writers k.sink) (v.chans k.chan)).2.2 } } := by
              simp only [runWorker, hk, hterm, hhand, Bool.false_eq_true, if_false]
            rw [hrun]
            refine ⟨h, ?_, ?_⟩
            · simp [Function.update_apply, hne.symm]
            · intro k2 hk2 hc2
              rcases List.mem_or_eq_of_mem_set hk2 with hin | heq
              · exact hdead k2 hin hc2
              · subst heq
                exact absurd hc2 hne
      | _ => exact ⟨h, rfl, hdead⟩
    have := ih (call v c) ch line hstep.1 hstep.2.2
    unfold run at this ⊢
    rw [List.foldl_cons]
    exact ⟨this.1, this.2.trans hstep.2.1⟩

/-- C1, counterexample: an async logger with a buffer of one line on a sink
that fails. The first line is buffered, the worker takes it, fails to write
it and returns; the second line is buffered; the third `Print` finds the
channel open and full: it blocks, the channel holds one line as before, and
no turn of the workers changes that. -/
theorem print_blocks_on_full_queue :
    (stuckWorld.chans stuckLogger.async).closed = false ∧
    stuckWorld.locked stuckLogger.mutex = false ∧
    stuckWorld.status = .running ∧
    (stuckWorld.chans stuckLogger.async).buf =
      ["2026/11/04 09:05:00.007 | main.go:12 | TRACE | 7 | b\n".toList] ∧
    (stuckLogger.log .Print (stuckLogger.SetLevel stuckWorld FatalLvl) sampleEnv
        "c".toList []).status =
      .sending 1 "2026/11/04 09:05:00.007 | main.go:12 | TRACE | 7 | c\n".toList ∧
    ((stuckLogger.log .Print (stuckLogger.SetLevel stuckWorld FatalLvl) sampleEnv
        "c".toList []).chans stuckLogger.async).buf =
      ["2026/11/04 09:05:00.007 | main.go:12 | TRACE | 7 | b\n".toList] ∧
    (run (stuckLogger.log .Print (stuckLogger.SetLevel stuckWorld FatalLvl) sampleEnv
        "c".toList []) [.worker 1, .worker 0, .worker 1]).status =
      .sending 1 "2026/11/04 09:05:00.007 | main.go:12 | TRACE | 7 | c\n".toList ∧
    ((run (stuckLogger.log .Print (stuckLogger.SetLevel stuckWorld FatalLvl) sampleEnv
        "c".toList []) [.worker 1, .worker 0, .worker 1]).chans stuckLogger.async).buf =
      ["2026/11/04 09:05:00.007 | main.go:12 | TRACE | 7 | b\n".toList] := by
  decide

/-- C1, amended: on a logger whose threshold was set to `T` in `Trace..Fatal`
with `SetLevel` (its channel open if it is in async mode, its mutex free if
it is in sync mode), each of `Print`, `Trace`, `Debug`, `Info`, `Warning`,
`Error` returns the state unchanged unless it is `Print` or its severity is
at least `T`; then it composes one line and, in sync mode, writes it once to
the sink; in async mode it puts it once into the buffer if the buffer has
room, and otherwise blocks in the send with nothing enqueued. The turn of a
worker still in its loop on that channel then takes the line, once, behind
the buffered ones, and the call returns; if every worker of the channel has
returned, the call stays blocked and the channel unchanged for ever. -/
theorem log_filter_and_dispatch (l : logger) (w : World) (T : Nat) (op : Op) (env : Ambient)
    (format : Bytes) (parameters : List Arg) (hT : T ≤ FatalLvl)
    (hopen : l.asyncFlag = true → (w.chans l.async).closed = false)
    (hfree : l.asyncFlag = false → w.locked l.mutex = false) :
    l.log op (l.SetLevel w T) env format parameters =
        (if op = .Print ∨ T ≤ op.severity then
          if l.asyncFlag then
            if (w.chans l.async).buf.length < (w.chans l.async).cap then
              { l.SetLevel w T with chans := Function.update w.chans l.async <|
                  { w.chans l.async with buf := (w.chans l.async).buf ++
                      [loggingLineComposer w.levelNames env format op.severity parameters] } }
            else
              { l.SetLevel w T with status := (Status.sending l.async
                  (loggingLineComposer w.levelNames env format op.severity parameters)) }
          else
            { l.SetLevel w T with writers := Function.update w.writers l.synch <|
                { w.writers l.synch with attempts := (w.writers l.synch).attempts ++
                    [loggingLineComposer w.levelNames env format op.severity parameters] } }
        else l.SetLevel w T) ∧
      (∀ (i : Nat) (k : Worker), l.asyncFlag = true → w.workers[i]? = some k →
        k.chan = l.async → k.state.terminated = false →
        runWorker { l.SetLevel w T with status := (Status.sending l.async
            (loggingLineComposer w.levelNames env format op.severity parameters)) } i =
          runWorker { l.SetLevel w T with
            chans := (Function.update w.chans l.async
              { w.chans l.async with buf := (w.chans l.async).buf ++
                  [loggingLineComposer w.levelNames env format op.severity parameters] })
            status := .running } i) ∧
      (∀ calls : List Call,
        (∀ k ∈ w.workers, k.chan = l.async → k.state.terminated = true) →
        (run { l.SetLevel w T with status := (Status.sending l.async
            (loggingLineComposer w.levelNames env format op.severity parameters)) }
          calls).status =
            .sending l.async
              (loggingLineComposer w.levelNames env format op.severity parameters) ∧
          (run { l.SetLevel w T with status := (Status.sending l.async
              (loggingLineComposer w.levelNames env format op.severity parameters)) }
            calls).chans l.async = w.chans l.async) := by
  have hlev : (l.SetLevel w T).levels l.level = T := by
    unfold logger.SetLevel
    simp only [Function.update_same]
    rw [if_neg (Nat.not_lt.mpr hT)]
  refine ⟨?_, ?_, ?_⟩
  · rw [logger_log_eq, hlev]
    split
    · rw [logLine_eq l (l.SetLevel w T) _ hopen hfree]
      rfl
    · rfl
  · intro i k hflag hk hch hlive
    exact runWorker_releases (l.SetLevel w T) l.async _ i k hk hch hlive (hopen hflag)
  · intro calls hdead
    exact sender_stuck calls _ l.async _ rfl hdead

/-- Witness of C1 (amended): on the default logger after `init`, threshold
`Info`, the call `Warning("x=%d", 3)` writes one line to standard output. -/
theorem log_filter_and_dispatch_witness :
    (InfoLvl ≤ FatalLvl ∧
      (startLogger.asyncFlag = true → (startWorld.chans startLogger.async).closed = false) ∧
      (startLogger.asyncFlag = false → startWorld.locked startLogger.mutex = false)) ∧
    ((startLogger.log .Warning (startLogger.SetLevel startWorld InfoLvl) sampleEnv
        "x=%d".toList [.int 3]).writers Stdout).attempts =
      ["2026/11/04 09:05:00.007 | main.go:12 | WARNING | 7 | x=3\n".toList] := by
  refine ⟨⟨by decide, fun _ => by decide, fun _ => by decide⟩, ?_⟩
  rw [(log_filter_and_dispatch startLogger startWorld InfoLvl .Warning sampleEnv _ _
    (by decide) (fun _ => by decide) (fun _ => by decide)).1]
  decide

/-! ## Fatal -/

/-- A process that has exited, panicked or is blocked on a mutex executes
no call. -/
theorem run_of_dead (w : World) (calls : List Call) (h : w.status.alive = false) :
    run w calls = w := by
  induction calls with
  | nil => rfl
  | cons c rest ih =>
    have hc : call w c = w := by
      unfold call
      cases hs : w.status <;> simp_all [Status.alive]
    unfold run at ih ⊢
    rw [List.foldl_cons, hc]
    exact ih

/-- C3: on every logger (either mode, any threshold) whose mutex is free,
`Fatal` takes the mutex, writes exactly one composed line to the sink,
leaves every channel untouched and ends the process with `os.Exit(-1)`, a
non-zero status; no later call changes anything. The function `Fatal` of
the package does the same on the default logger. -/
theorem fatal_writes_then_exits (l : logger) (w : World) (env : Ambient) (format : Bytes)
    (parameters : List Arg) (calls : List Call) (hfree : w.locked l.mutex = false) :
    l.Fatal w env format parameters =
        { w with
            locked := Function.update w.locked l.mutex true
            writers := Function.update w.writers l.synch <|
              { w.writers l.synch with attempts := (w.writers l.synch).attempts ++
                  [loggingLineComposer w.levelNames env format FatalLvl parameters] }
            status := .exited (-1) } ∧
      (l.Fatal w env format parameters).chans = w.chans ∧
      (∃ code : Int, (l.Fatal w env format parameters).status = .exited code ∧
        code ≠ 0 ∧ code % 256 ≠ 0) ∧
      run (l.Fatal w env format parameters) calls = l.Fatal w env format parameters ∧
      (w.defaultLogger = some l →
        Fatal w env format parameters = l.Fatal w env format parameters) := by
  have key : l.Fatal w env format parameters =
        { w with
            locked := Function.update w.locked l.mutex true
            writers := Function.update w.writers l.synch <|
              { w.writers l.synch with attempts := (w.writers l.synch).attempts ++
                  [loggingLineComposer w.levelNames env format FatalLvl parameters] }
            status := .exited (-1) } := by
    unfold logger.Fatal World.write Writer.Write
    simp [hfree]
  refine ⟨key, ?_, ?_, ?_, ?_⟩
  · rw [key]
  · refine ⟨-1, ?_, by decide, by decide⟩
    rw [key]
  · apply run_of_dead
    rw [key]
    rfl
  · intro hdef
    unfold Fatal World.onDefault logger.Fatal
    rw [hdef]

/-- Witness of C3: `Fatal("boom")` on the default logger after `init`. -/
theorem fatal_writes_then_exits_witness :
    startWorld.locked startLogger.mutex = false ∧
    ((startLogger.Fatal startWorld sampleEnv "boom".toList []).writers Stdout).attempts =
      ["2026/11/04 09:05:00.007 | main.go:12 | FATAL | 7 | boom\n".toList] ∧
    (startLogger.Fatal startWorld sampleEnv "boom".toList []).status = .exited (-1) ∧
    ((run (startLogger.Fatal startWorld sampleEnv "boom".toList [])
        [.pkgLog .Print sampleEnv "late".toList []]).writers Stdout).attempts =
      ["2026/11/04 09:05:00.007 | main.go:12 | FATAL | 7 | boom\n".toList] := by
  have h := fatal_writes_then_exits startLogger startWorld sampleEnv "boom".toList []
    [.pkgLog .Print sampleEnv "late".toList []] (by decide)
  refine ⟨by decide, ?_, ?_, ?_⟩
  · rw [h.1]; decide
  · rw [h.1]
  · rw [h.2.2.2.1, h.1]; decide

/-! ## The async worker -/

/-- The loop of `asyncLogging` on a writer that never fails: every line is
written, in order, and the channel is left empty. -/
theorem asyncLoggingLoop_all (closed : Bool) (lines : List Bytes) :
    ∀ wr : Writer, (∀ h x, wr.fails h x = false) →
      asyncLoggingLoop closed wr lines =
        ({ wr with attempts := wr.attempts ++ lines }, [],
          if closed then .drained else .waiting) := by
  induction lines with
  | nil => intro wr _; simp [asyncLoggingLoop]
  | cons x rest ih =>
    intro wr hok
    have hstep := ih { wr with attempts := wr.attempts ++ [x] } hok
    simp only [asyncLoggingLoop, Writer.Write, hok]
    rw [hstep]
    simp

/-- The run of `asyncLogging` on a closed channel and a writer that never
fails. -/
theorem asyncLogging_all_closed (wr : Writer) (lines : List Bytes) (cap : Nat)
    (hok : ∀ h x, wr.fails h x = false) :
    asyncLogging wr { buf := lines, cap := cap, closed := true } =
      ({ wr with attempts := wr.attempts ++ lines },
        { buf := [], cap := cap, closed := true }, .drained) := by
  unfold asyncLogging
  simp only [asyncLoggingLoop_all true lines wr hok]
  rfl

/-- C4: on a closed channel holding the lines `lines` and a writer that
never fails, `asyncLogging` returns (the goroutine terminates), the channel
is empty, and the writes it made are exactly `lines`, each once, in the
order of the channel. -/
theorem asyncLogging_drains_closed_queue (wr : Writer) (lines : List Bytes) (cap : Nat)
    (hok : ∀ h x, wr.fails h x = false) :
    asyncLogging wr { buf := lines, cap := cap, closed := true } =
        ({ wr with attempts := wr.attempts ++ lines },
          { buf := [], cap := cap, closed := true }, .drained) ∧
      (asyncLogging wr { buf := lines, cap := cap, closed := true }).2.2.terminated = true := by
  have key : asyncLogging wr { buf := lines, cap := cap, closed := true } =
      ({ wr with attempts := wr.attempts ++ lines },
        { buf := [], cap := cap, closed := true }, .drained) := by
    unfold asyncLogging
    simp only [asyncLoggingLoop_all true lines wr hok]
    rfl
  exact ⟨key, by rw [key]; rfl⟩

/-- Witness of C4: three lines on a closed channel of capacity 2. -/
theorem asyncLogging_drains_closed_queue_witness :
    (∀ h x, (quietWriters Stdout).fails h x = false) ∧
    (asyncLogging (quietWriters Stdout)
        { buf := ["a\n".toList, "b\n".toList, "c\n".toList], cap := 2, closed := true }).1.attempts =
      ["a\n".toList, "b\n".toList, "c\n".toList] :=
  ⟨fun _ _ => rfl,
   by rw [(asyncLogging_drains_closed_queue (quietWriters Stdout)
        ["a\n".toList, "b\n".toList, "c\n".toList] 2 (fun _ _ => rfl)).1]; rfl⟩

/-- Whatever the order of sends and passes of the worker, on a writer that
does not fail the lines written followed by the lines still in the channel
are the lines sent, in the order they were sent. -/
theorem events_invariant (events : List QueueEvent) :
    ∀ (w : Writer) (ch : Chan),
      (events.foldl QueueEvent.apply (w, ch)).1.attempts ++
          (events.foldl QueueEvent.apply (w, ch)).2.buf =
        w.attempts ++ ch.buf ++ sentLines events ∧
      (events.foldl QueueEvent.apply (w, ch)).1.fails = w.fails ∧
      (events.foldl QueueEvent.apply (w, ch)).2.cap = ch.cap ∧
      (events.foldl QueueEvent.apply (w, ch)).2.closed = ch.closed := by
  induction events with
  | nil => intro w ch; simp [sentLines]
  | cons e rest ih =>
    intro w ch
    cases e with
    | send line =>
      have := ih w { ch with buf := ch.buf ++ [line] }
      simpa [QueueEvent.apply, sentLines] using this
    | pass =>
      cases hb : ch.buf with
      | nil =>
        have := ih w ch
        simpa [QueueEvent.apply, sentLines, hb] using this
      | cons line more =>
        have := ih (w.Write line).1 { ch with buf := more }
        simpa [QueueEvent.apply, sentLines, hb, Writer.Write] using this

/-- Any interleaving of sends with passes of the worker, then `close`, then
the worker running on: the goroutine returns and the writes are the lines
sent, each once, in the order they were sent. -/
theorem asyncLogging_any_interleaving (wr : Writer) (cap : Nat) (events : List QueueEvent)
    (hok : ∀ h x, wr.fails h x = false) :
    (asyncLogging (events.foldl QueueEvent.apply (wr, { buf := [], cap := cap, closed := false })).1
        { (events.foldl QueueEvent.apply (wr, { buf := [], cap := cap, closed := false })).2 with
          closed := true }).1.attempts = wr.attempts ++ sentLines events ∧
    (asyncLogging (events.foldl QueueEvent.apply (wr, { buf := [], cap := cap, closed := false })).1
        { (events.foldl QueueEvent.apply (wr, { buf := [], cap := cap, closed := false })).2 with
          closed := true }).2.2 = .drained := by
  obtain ⟨h1, h2, h3, _⟩ := events_invariant events wr { buf := [], cap := cap, closed := false }
  generalize events.foldl QueueEvent.apply (wr, { buf := [], cap := cap, closed := false }) = s
    at h1 h2 h3
  have hok2 : ∀ h x, s.1.fails h x = false := by rw [h2]; exact hok
  have := asyncLogging_all_closed s.1 s.2.buf s.2.cap hok2
  rw [this]
  simpa using h1

/-- The loop of `asyncLogging` when the write of the line at position `k`
is the first to fail. -/
theorem asyncLoggingLoop_first_failure (closed : Bool) (lines : List Bytes) :
    ∀ (wr : Writer) (k : Nat), k < lines.length →
      (∀ j x, j < k → lines[j]? = some x → wr.fails (wr.attempts ++ lines.take j) x = false) →
      (∀ x, lines[k]? = some x → wr.fails (wr.attempts ++ lines.take k) x = true) →
      asyncLoggingLoop closed wr lines =
        ({ wr with attempts := wr.attempts ++ lines.take (k + 1) }, lines.drop (k + 1),
          .writeFailed) := by
  induction lines with
  | nil => intro wr k hk; simp at hk
  | cons x rest ih =>
    intro wr k hk hbefore hfail
    cases k with
    | zero =>
      have hx : wr.fails wr.attempts x = true := by simpa using hfail x (by simp)
      simp [asyncLoggingLoop, Writer.Write, hx]
    | succ k =>
      have hx : wr.fails wr.attempts x = false := by
        simpa using hbefore 0 x (by omega) (by simp)
      have hk1 : k < rest.length := by simpa using hk
      have hstep := ih { wr with attempts := wr.attempts ++ [x] } k hk1
        (by
          intro j y hj hy
          have := hbefore (j + 1) y (by omega) (by simpa using hy)
          simpa using this)
        (by
          intro y hy
          have := hfail y (by simpa using hy)
          simpa using this)
      simp only [asyncLoggingLoop, Writer.Write, hx]
      rw [hstep]
      simp

/-- C7: when the first write to fail is the one of the line at position `k`
of the channel (counted from 0, so the `k+1`-th line received), then
`asyncLogging` attempts the writes of the first `k+1` lines, each once and
in order, returns without a panic, and leaves every later line unreceived
in the channel. -/
theorem asyncLogging_stops_at_first_failure (wr : Writer) (lines : List Bytes) (cap : Nat)
    (closed : Bool) (k : Nat) (hk : k < lines.length)
    (hbefore : ∀ j x, j < k → lines[j]? = some x →
      wr.fails (wr.attempts ++ lines.take j) x = false)
    (hfail : ∀ x, lines[k]? = some x → wr.fails (wr.attempts ++ lines.take k) x = true) :
    asyncLogging wr { buf := lines, cap := cap, closed := closed } =
        ({ wr with attempts := wr.attempts ++ lines.take (k + 1) },
          { buf := lines.drop (k + 1), cap := cap, closed := closed }, .writeFailed) ∧
      (asyncLogging wr { buf := lines, cap := cap, closed := closed }).2.2.terminated = true := by
  have key : asyncLogging wr { buf := lines, cap := cap, closed := closed } =
      ({ wr with attempts := wr.attempts ++ lines.take (k + 1) },
        { buf := lines.drop (k + 1), cap := cap, closed := closed }, .writeFailed) := by
    unfold asyncLogging
    simp only [asyncLoggingLoop_first_failure closed lines wr k hk hbefore hfail]
  exact ⟨key, by rw [key]; rfl⟩

/-- Witness of C7: of three lines the second write fails; two writes are
attempted and the third line stays in the channel. -/
theorem asyncLogging_stops_at_first_failure_witness :
    (1 < ["a\n".toList, "b\n".toList, "c\n".toList].length ∧
      (∀ j x, j < 1 → ["a\n".toList, "b\n".toList, "c\n".toList][j]? = some x →
        secondWriteFails.fails (secondWriteFails.attempts ++
          ["a\n".toList, "b\n".toList, "c\n".toList].take j) x = false) ∧
      (∀ x, ["a\n".toList, "b\n".toList, "c\n".toList][1]? = some x →
        secondWriteFails.fails (secondWriteFails.attempts ++
          ["a\n".toList, "b\n".toList, "c\n".toList].take 1) x = true)) ∧
    (asyncLogging secondWriteFails
        { buf := ["a\n".toList, "b\n".toList, "c\n".toList], cap := 5, closed := false }).1.attempts =
      ["a\n".toList, "b\n".toList] ∧
    (asyncLogging secondWriteFails
        { buf := ["a\n".toList, "b\n".toList, "c\n".toList], cap := 5, closed := false }).2.1.buf =
      ["c\n".toList] := by
  have hb : ∀ j x, j < 1 → ["a\n".toList, "b\n".toList, "c\n".toList][j]? = some x →
      secondWriteFails.fails (secondWriteFails.attempts ++
        ["a\n".toList, "b\n".toList, "c\n".toList].take j) x = false := by
    intro j x hj _
    have : j = 0 := by omega
    subst this
    rfl
  have hf : ∀ x, ["a\n".toList, "b\n".toList, "c\n".toList][1]? = some x →
      secondWriteFails.fails (secondWriteFails.attempts ++
        ["a\n".toList, "b\n".toList, "c\n".toList].take 1) x = true := by
    intro x _
    rfl
  have h := asyncLogging_stops_at_first_failure secondWriteFails
    ["a\n".toList, "b\n".toList, "c\n".toList] 5 false 1 (by decide) hb hf
  refine ⟨⟨by decide, hb, hf⟩, ?_, ?_⟩
  · rw [h.1]; rfl
  · rw [h.1]; rfl

/-! ## Construction and the default logger -/

/-- The level names after `init`. -/
theorem init_levelNames (ws : Nat → Writer) (i : Fin 6) :
    (init (World.boot ws)).levelNames i =
      (["TRACE".toList, "DEBUG".toList, "INFO".toList, "WARNING".toList, "ERROR".toList,
        "FATAL".toList].getD i.val []) := by
  fin_cases i <;> rfl

/-- An emitting call on a logger in sync mode sends nothing: every channel
is as before. -/
theorem sync_log_chans (l : logger) (op : Op) (w : World) (env : Ambient) (format : Bytes)
    (parameters : List Arg) (hsync : l.asyncFlag = false) :
    (l.log op w env format parameters).chans = w.chans := by
  have hline : ∀ line, (l.logLine w line).chans = w.chans := by
    intro line
    unfold logger.logLine World.write
    rw [hsync]
    simp only [Bool.false_eq_true, if_false]
    split <;> rfl
  cases op <;>
    simp only [logger.log, logger.Print, logger.Trace, logger.Debug, logger.Info,
      logger.Warning, logger.Error] <;>
    first
      | exact hline _
      | (split
         · rfl
         · exact hline _)

/-- C6, counterexample: `NewLogger(os.Stdout, false, 0)` in a fresh process
creates a sync-mode logger and starts a worker goroutine on its sink. -/
theorem newLogger_sync_spawns_worker :
    (NewLogger (World.boot quietWriters) Stdout false 0).2.asyncFlag = false ∧
    (NewLogger (World.boot quietWriters) Stdout false 0).2.synch = Stdout ∧
    (NewLogger (World.boot quietWriters) Stdout false 0).1.workers =
      [{ sink := Stdout, chan := 0, state := .waiting }] := by
  decide

/-- The method `Fatal` sends nothing: every channel is as before. -/
theorem fatal_chans (l : logger) (w : World) (env : Ambient) (format : Bytes)
    (parameters : List Arg) : (l.Fatal w env format parameters).chans = w.chans := by
  unfold logger.Fatal World.write
  simp only
  split <;> rfl

/-- A world with the same buffer at `a`, no address given back, the same
default logger and no caller blocked on `a` keeps the channel idle. -/
theorem idle_of_frame (w v : World) (a : Nat) (h : w.Idle a)
    (hc : (v.chans a).buf = (w.chans a).buf) (hn : w.next ≤ v.next)
    (hd : v.defaultLogger = w.defaultLogger) (hs : ∀ line, v.status ≠ .sending a line) :
    v.Idle a :=
  ⟨hc.trans h.empty, Nat.lt_of_lt_of_le h.allocated hn, by rw [hd]; exact h.syncDefault, hs⟩

/-- The method `logLine` of a logger that is in sync mode or on another
channel keeps a channel idle. -/
theorem logLine_idle (l : logger) (w : World) (line : Bytes) (a : Nat) (h : w.Idle a)
    (hl : l.asyncFlag = true → l.async ≠ a) : (l.logLine w line).Idle a := by
  unfold logger.logLine
  by_cases hf : l.asyncFlag = true
  · have hne := hl hf
    rw [if_pos hf]
    unfold World.send
    by_cases hc : (w.chans l.async).closed = true
    · rw [if_pos hc]
      exact idle_of_frame w _ a h rfl (Nat.le_refl _) rfl (fun _ hs => by simp at hs)
    · rw [if_neg hc]
      by_cases hroom : (w.chans l.async).buf.length < (w.chans l.async).cap
      · rw [if_pos hroom]
        refine idle_of_frame w _ a h ?_ (Nat.le_refl _) rfl h.notSending
        simp [Function.update_apply, hne.symm]
      · rw [if_neg hroom]
        refine idle_of_frame w _ a h rfl (Nat.le_refl _) rfl ?_
        intro line2 hs
        simp only [Status.sending.injEq] at hs
        exact hne hs.1
  · rw [if_neg hf]
    by_cases hlock : w.locked l.mutex = true
    · rw [if_pos hlock]
      exact idle_of_frame w _ a h rfl (Nat.le_refl _) rfl (fun _ hs => by simp at hs)
    · rw [if_neg hlock]
      exact idle_of_frame w _ a h rfl (Nat.le_refl _) rfl h.notSending

/-- An emitting method of a logger that is in sync mode or on another
channel keeps a channel idle. -/
theorem logger_log_idle (l : logger) (op : Op) (w : World) (env : Ambient) (format : Bytes)
    (parameters : List Arg) (a : Nat) (h : w.Idle a)
    (hl : l.asyncFlag = true → l.async ≠ a) :
    (l.log op w env format parameters).Idle a := by
  rw [logger_log_eq]
  split
  · exact logLine_idle l w _ a h hl
  · exact h

/-- The method `Fatal` keeps a channel idle. -/
theorem fatal_idle (l : logger) (w : World) (env : Ambient) (format : Bytes)
    (parameters : List Arg) (a : Nat) (h : w.Idle a) :
    (l.Fatal w env format parameters).Idle a := by
  unfold logger.Fatal World.write
  simp only
  by_cases hlock : w.locked l.mutex = true
  · rw [if_pos hlock]
    exact idle_of_frame w _ a h rfl (Nat.le_refl _) rfl (fun _ hs => by simp at hs)
  · rw [if_neg hlock]
    exact idle_of_frame w _ a h rfl (Nat.le_refl _) rfl (fun _ hs => by simp at hs)

/-- The construction of a logger keeps an allocated channel idle. -/
theorem construct_idle (w : World) (writer : Nat) (asyncFlag : Bool) (bufferingSize : Nat)
    (a : Nat) (h : w.Idle a) : (w.construct writer asyncFlag bufferingSize).1.Idle a := by
  have hne : a ≠ w.next := Nat.ne_of_lt h.allocated
  unfold World.construct
  refine idle_of_frame w _ a h ?_ (Nat.le_succ _) rfl h.notSending
  simp [Function.update_apply, hne]

/-- The function `Initialize` keeps an idle channel idle: it closes the
channel of the old default logger without touching its buffer, and the new
default logger has a new channel. -/
theorem initialize_idle (w : World) (writer : Nat) (asyncFlag : Bool) (bufferingSize : Nat)
    (a : Nat) (h : w.Idle a) : (Initialize w writer asyncFlag bufferingSize).Idle a := by
  have hne : a ≠ w.next := Nat.ne_of_lt h.allocated
  have hinstall : ∀ v : World, (v.chans a).buf = [] → v.next = w.next →
      (∀ line, v.status ≠ .sending a line) →
      (v.install writer asyncFlag bufferingSize).Idle a := by
    intro v hv hn hs
    unfold World.install World.construct
    refine ⟨?_, ?_, ?_, hs⟩
    · simp [Function.update_apply, hn, hne, hv]
    · simp only [hn]
      exact Nat.lt_succ_of_lt h.allocated
    · intro l hl hla
      simp only [Option.some.injEq] at hl
      subst hl
      simp only [hn] at hla
      exact absurd hla.symm hne
  unfold Initialize
  cases hd : w.defaultLogger with
  | none => exact hinstall w h.empty rfl h.notSending
  | some old =>
    simp only [World.close]
    by_cases hc : (w.chans old.async).closed = true
    · simp only [hc, if_true]
      exact idle_of_frame w _ a h rfl (Nat.le_refl _) hd.symm (fun _ hs => by simp at hs)
    · have hc2 : (w.chans old.async).closed = false := by simpa using hc
      simp only [hc2, Bool.false_eq_true, if_false]
      apply hinstall
      · simp only [Function.update_apply]
        split
        · rename_i heq
          simp only [heq]
          rw [← heq]
          exact h.empty
        · exact h.empty
      · rfl
      · intro line hs
        simp only at hs
        cases hst : w.status with
        | sending c line2 =>
          rw [hst] at hs
          simp only at hs
          by_cases hco : c = old.async
          · rw [if_pos hco] at hs
            simp at hs
          · rw [if_neg hco] at hs
            exact h.notSending line (hst.trans hs)
        | running => rw [hst] at hs; simp at hs
        | exited code => rw [hst] at hs; simp at hs
        | panicked => rw [hst] at hs; simp at hs
        | blocked => rw [hst] at hs; simp at hs

/-- A receive changes no channel but the one received from, and blocks no
caller. -/
theorem handOver_idle (w : World) (ch a : Nat) (h : w.Idle a) : (w.handOver ch).Idle a := by
  unfold World.handOver
  split
  · rename_i c line hst
    split
    · rename_i hcond
      have hca : ch ≠ a := by
        intro heq
        exact h.notSending line (by rw [hst, hcond.1, heq])
      refine idle_of_frame w _ a h ?_ (Nat.le_refl _) rfl (fun _ hs => by simp at hs)
      simp [Function.update_apply, hca.symm]
    · exact h
  · exact h

/-- A turn of a worker keeps an idle channel idle. -/
theorem runWorker_idle (w : World) (i a : Nat) (h : w.Idle a) : (runWorker w i).Idle a := by
  unfold runWorker
  split
  · exact h
  · rename_i k hk
    split
    · exact h
    · have hv := handOver_idle w k.chan a h
      refine idle_of_frame _ _ a hv ?_ (Nat.le_refl _) rfl hv.notSending
      simp only [asyncLogging, Function.update_apply]
      split
      · rename_i heq
        subst heq
        simp only
        rw [hv.empty]
        simp [asyncLoggingLoop]
      · rfl

/-- A turn of the worker of an idle channel writes nothing. -/
theorem runWorker_idle_writes (w : World) (i a : Nat) (k : Worker) (h : w.Idle a)
    (hk : w.workers[i]? = some k) (hch : k.chan = a) :
    (runWorker w i).writers = w.writers := by
  have hhand : w.handOver k.chan = w := by
    unfold World.handOver
    split
    · rename_i c line hst
      rw [if_neg]
      rintro ⟨hc, _⟩
      exact h.notSending line (by rw [hst, hc, hch])
    · rfl
  unfold runWorker
  rw [hk]
  simp only
  split
  · rfl
  · subst hch
    simp only [hhand, asyncLogging, h.empty, asyncLoggingLoop]
    exact Function.update_eq_self k.sink w.writers

/-- A function of the package on the zero value of `defaultLogger` panics. -/
theorem log_of_no_default (op : Op) (w : World) (env : Ambient) (format : Bytes)
    (parameters : List Arg) (hd : w.defaultLogger = none) :
    log op w env format parameters = { w with status := .panicked } := by
  cases op <;> simp [log, Print, Trace, Debug, Info, Warning, Error, World.onDefault, hd]

/-- A function of the package keeps a channel idle if the method does. -/
theorem onDefault_idle (w : World) (k : logger → World) (a : Nat) (h : w.Idle a)
    (hk : ∀ l, (k l).Idle a) : (w.onDefault k).Idle a := by
  unfold World.onDefault
  split
  · exact hk _
  · exact idle_of_frame w _ a h rfl (Nat.le_refl _) rfl (fun _ hs => by simp at hs)

/-- Every call that is not an emitting call through a logger value in async
mode on the channel keeps the channel idle. -/
theorem call_idle (w : World) (c : Call) (a : Nat) (h : w.Idle a)
    (hc : c.sendsOn a = false) : (call w c).Idle a := by
  unfold call
  split
  · cases c with
    | log l op env format parameters =>
      apply logger_log_idle l op w env format parameters a h
      intro hf hla
      simp [Call.sendsOn, hf, hla] at hc
    | fatal l env format parameters => exact fatal_idle l w env format parameters a h
    | setLevel l n => exact ⟨h.empty, h.allocated, h.syncDefault, h.notSending⟩
    | pkgLog op env format parameters =>
      cases hd : w.defaultLogger with
      | none =>
        simp only [log_of_no_default op w env format parameters hd]
        exact idle_of_frame w _ a h rfl (Nat.le_refl _) rfl (fun _ hs => by simp at hs)
      | some l =>
        simp only [log_eq_default op w l env format parameters hd]
        apply logger_log_idle l op w env format parameters a h
        intro hf hla
        have := h.syncDefault l hd hla
        rw [hf] at this
        exact Bool.noConfusion this
    | pkgFatal env format parameters =>
      exact onDefault_idle w _ a h (fun l => fatal_idle l w env format parameters a h)
    | pkgSetLevel n =>
      exact onDefault_idle w _ a h
        (fun l => ⟨h.empty, h.allocated, h.syncDefault, h.notSending⟩)
    | setLevelName level name =>
      simp only [SetLevelName]
      split
      · exact h
      · exact ⟨h.empty, h.allocated, h.syncDefault, h.notSending⟩
    | newLogger writer asyncFlag bufferingSize =>
      exact construct_idle w writer asyncFlag bufferingSize a h
    | replaceDefault writer asyncFlag bufferingSize =>
      exact initialize_idle w writer asyncFlag bufferingSize a h
    | worker i => exact runWorker_idle w i a h
  · split
    · exact runWorker_idle w _ a h
    · exact h

/-- Every sequence of such calls keeps the channel idle. -/
theorem run_idle (a : Nat) (calls : List Call) :
    ∀ w : World, w.Idle a → (∀ c ∈ calls, c.sendsOn a = false) → (run w calls).Idle a := by
  induction calls with
  | nil => intro w h _; exact h
  | cons c rest ih =>
    intro w h hc
    exact ih _ (call_idle w c a h (hc c (List.mem_cons_self _ _)))
      (fun c2 hc2 => hc c2 (List.mem_cons_of_mem _ hc2))

/-- C6, amended: `NewLogger` and `Initialize` start exactly one worker
goroutine on the sink and the new channel of the logger they create,
whatever `asyncFlag` is. A logger in sync mode, in any state, sends on no
channel: its emitting calls and `Fatal` leave every channel as it is. So
the channel of a logger created with `asyncFlag = false`, by `NewLogger` or
by `Initialize`, is empty in every later state, whatever calls the process
makes on this logger, on other loggers, through the package and whatever
turns the workers take (no logger value in async mode exists on that
channel), and every turn of its worker writes nothing. -/
theorem constructors_always_spawn (w : World) (writer : Nat) (asyncFlag : Bool)
    (bufferingSize : Nat) (hrun : w.status = .running)
    (hdef : ∀ old, w.defaultLogger = some old →
      (w.chans old.async).closed = false ∧ old.async < w.next) :
    (NewLogger w writer asyncFlag bufferingSize).1.workers =
        w.workers ++ [{ sink := writer, chan := w.next, state := .waiting }] ∧
      (NewLogger w writer asyncFlag bufferingSize).2 =
        { synch := writer, async := w.next, mutex := w.next, asyncFlag := asyncFlag,
          level := w.next } ∧
      (Initialize w writer asyncFlag bufferingSize).workers =
        w.workers ++ [{ sink := writer, chan := w.next, state := .waiting }] ∧
      (Initialize w writer asyncFlag bufferingSize).defaultLogger =
        some { synch := writer, async := w.next, mutex := w.next, asyncFlag := asyncFlag,
               level := w.next } ∧
      (∀ (l : logger) (v : World) (op : Op) (env : Ambient) (format : Bytes)
          (parameters : List Arg), l.asyncFlag = false →
        (l.log op v env format parameters).chans = v.chans ∧
          (l.Fatal v env format parameters).chans = v.chans) ∧
      (∀ calls : List Call, (∀ c ∈ calls, c.sendsOn w.next = false) →
        ((run (NewLogger w writer false bufferingSize).1 calls).chans w.next).buf = [] ∧
          (∀ (i : Nat) (k : Worker),
            (run (NewLogger w writer false bufferingSize).1 calls).workers[i]? = some k →
            k.chan = w.next →
            (runWorker (run (NewLogger w writer false bufferingSize).1 calls) i).writers =
              (run (NewLogger w writer false bufferingSize).1 calls).writers) ∧
          ((run (Initialize w writer false bufferingSize) calls).chans w.next).buf = [] ∧
          (∀ (i : Nat) (k : Worker),
            (run (Initialize w writer false bufferingSize) calls).workers[i]? = some k →
            k.chan = w.next →
            (runWorker (run (Initialize w writer false bufferingSize) calls) i).writers =
              (run (Initialize w writer false bufferingSize) calls).writers)) := by
  have hinit : ∀ flag : Bool, Initialize w writer flag bufferingSize =
      ((match w.defaultLogger with
        | some old => { w with chans := (Function.update w.chans old.async
                          { w.chans old.async with closed := true }) }
        | none => w).install writer flag bufferingSize) := by
    intro flag
    unfold Initialize
    cases hd : w.defaultLogger with
    | none => rfl
    | some old =>
      simp only [World.close, (hdef old hd).1, Bool.false_eq_true, if_false, hrun]
      rw [hd]
  have hnew : (NewLogger w writer false bufferingSize).1.Idle w.next := by
    unfold NewLogger World.construct
    refine ⟨by simp, by simp, ?_, ?_⟩
    · intro l hl hla
      exact absurd hla (Nat.ne_of_lt (hdef l hl).2)
    · intro line hs
      simp [hrun] at hs
  have hini : (Initialize w writer false bufferingSize).Idle w.next := by
    rw [hinit]
    cases hd : w.defaultLogger with
    | none =>
      refine ⟨by simp [World.install, World.construct], by simp [World.install, World.construct],
        ?_, ?_⟩
      · intro l hl _
        simp only [World.install, World.construct, Option.some.injEq] at hl
        rw [← hl]
      · intro line hs
        simp [World.install, World.construct, hrun] at hs
    | some old =>
      refine ⟨by simp [World.install, World.construct], by simp [World.install, World.construct],
        ?_, ?_⟩
      · intro l hl _
        simp only [World.install, World.construct, Option.some.injEq] at hl
        rw [← hl]
      · intro line hs
        simp [World.install, World.construct, hrun] at hs
  refine ⟨rfl, rfl, ?_, ?_, ?_, ?_⟩
  · rw [hinit]
    cases hd : w.defaultLogger <;> rfl
  · rw [hinit]
    cases hd : w.defaultLogger <;> rfl
  · intro l v op env format parameters hsync
    exact ⟨sync_log_chans l op v env format parameters hsync,
      fatal_chans l v env format parameters⟩
  · intro calls hcalls
    have h1 := run_idle w.next calls _ hnew hcalls
    have h2 := run_idle w.next calls _ hini hcalls
    exact ⟨h1.empty, fun i k hk hch => runWorker_idle_writes _ i w.next k h1 hk hch,
      h2.empty, fun i k hk hch => runWorker_idle_writes _ i w.next k h2 hk hch⟩

/-- Witness of C6 (amended): after `init`, a second logger in sync mode on
the writer at address 2; calls on it, through the package and turns of the
workers leave its channel empty, and what reaches its sink was written by
its own calls. -/
theorem constructors_always_spawn_witness :
    (startWorld.status = .running ∧
      (∀ old, startWorld.defaultLogger = some old →
        (startWorld.chans old.async).closed = false ∧ old.async < startWorld.next) ∧
      (∀ c ∈ [Call.log (NewLogger startWorld 2 false 8).2 .Print sampleEnv "one".toList [],
              Call.worker 1, Call.pkgLog .Info sampleEnv "two".toList [], Call.worker 0,
              Call.worker 1],
        c.sendsOn startWorld.next = false)) ∧
    (NewLogger startWorld 2 false 8).1.workers =
      [{ sink := Stdout, chan := 0, state := .waiting },
       { sink := 2, chan := 1, state := .waiting }] ∧
    (Initialize startWorld 2 false 8).workers =
      [{ sink := Stdout, chan := 0, state := .waiting },
       { sink := 2, chan := 1, state := .waiting }] ∧
    ((run (NewLogger startWorld 2 false 8).1
        [Call.log (NewLogger startWorld 2 false 8).2 .Print sampleEnv "one".toList [],
         Call.worker 1, Call.pkgLog .Info sampleEnv "two".toList [], Call.worker 0,
         Call.worker 1]).chans 1).buf = [] := by
  have hd : ∀ old, startWorld.defaultLogger = some old →
      (startWorld.chans old.async).closed = false ∧ old.async < startWorld.next := by
    intro old h
    have : old = startLogger := by
      have h2 : startWorld.defaultLogger = some startLogger := rfl
      rw [h2] at h
      exact (Option.some.inj h).symm
    subst this
    exact ⟨rfl, by decide⟩
  have hc : ∀ c ∈ [Call.log (NewLogger startWorld 2 false 8).2 .Print sampleEnv "one".toList [],
      Call.worker 1, Call.pkgLog .Info sampleEnv "two".toList [], Call.worker 0,
      Call.worker 1], c.sendsOn startWorld.next = false := by
    intro c hc
    simp only [List.mem_cons, List.mem_singleton, List.not_mem_nil, or_false] at hc
    rcases hc with h | h | h | h | h <;> subst h <;> rfl
  have h := constructors_always_spawn startWorld 2 false 8 rfl hd
  refine ⟨⟨rfl, hd, hc⟩, ?_, ?_, ?_⟩
  · rw [h.1]; rfl
  · rw [h.2.2.1]; rfl
  · exact (h.2.2.2.2.2 _ hc).1

/-- C8, counterexample: after `init` the default logger is in sync mode;
`Info("hi")` puts the line on standard output at once, without a turn of
the worker, and the channel of the default logger stays empty. -/
theorem default_logger_writes_directly :
    startWorld.defaultLogger = some startLogger ∧
    startLogger.asyncFlag = false ∧
    ((Info startWorld sampleEnv "hi".toList []).chans startLogger.async).buf = [] ∧
    ((Info startWorld sampleEnv "hi".toList []).writers Stdout).attempts =
      ["2026/11/04 09:05:00.007 | main.go:12 | INFO | 7 | hi\n".toList] ∧
    (Info startWorld sampleEnv "hi".toList []).workers =
      [{ sink := Stdout, chan := 0, state := .waiting }] := by
  decide

/-- C8, amended: after `init` the default logger is bound to standard
output, its channel has capacity 0 and is open and empty, its threshold is
`Info`, and it is in sync mode: each emitting function of the package that
passes the threshold writes its line to standard output directly, under the
mutex, and sends nothing on the channel. -/
theorem default_logger_after_init (ws : Nat → Writer) (op : Op) (env : Ambient)
    (format : Bytes) (parameters : List Arg) :
    (init (World.boot ws)).defaultLogger = some startLogger ∧
      startLogger.synch = Stdout ∧ startLogger.asyncFlag = false ∧
      (init (World.boot ws)).chans startLogger.async = { buf := [], cap := 0, closed := false } ∧
      GetLevel (init (World.boot ws)) = some InfoLvl ∧
      log op (init (World.boot ws)) env format parameters =
        (if op = .Print ∨ InfoLvl ≤ op.severity then
          { init (World.boot ws) with
              writers := Function.update ws Stdout <|
                { ws Stdout with attempts := (ws Stdout).attempts ++
                    [loggingLineComposer (init (World.boot ws)).levelNames env format
                      op.severity parameters] } }
        else init (World.boot ws)) ∧
      (log op (init (World.boot ws)) env format parameters).chans =
        (init (World.boot ws)).chans := by
  have hdef : (init (World.boot ws)).defaultLogger = some startLogger := rfl
  have hlev : (init (World.boot ws)).levels startLogger.level = InfoLvl := rfl
  refine ⟨hdef, rfl, rfl, rfl, rfl, ?_, ?_⟩
  · rw [log_eq_default op _ startLogger env format parameters hdef, logger_log_eq, hlev]
    split
    · rw [logLine_eq startLogger _ _ (fun _ => rfl) (fun _ => rfl)]
      rfl
    · rfl
  · rw [log_eq_default op _ startLogger env format parameters hdef]
    exact sync_log_chans startLogger op _ env format parameters rfl

/-! ## Re-initialisation -/

/-- C9: `Initialize` called while the default logger `old` has an open
channel holding the lines `lines` closes that channel with the lines still
in it and installs a new default logger with the given sink and mode, a new
empty open channel of the given capacity and threshold `Info`. The worker
of the old channel, on a sink that does not fail, then writes exactly
`lines`, in order, and returns; the new default logger is not affected. -/
theorem initialize_drains_previous_queue (w : World) (old : logger) (i sink : Nat)
    (lines : List Bytes) (c writer : Nat) (asyncFlag : Bool) (bufferingSize : Nat)
    (hdef : w.defaultLogger = some old)
    (hchan : w.chans old.async = { buf := lines, cap := c, closed := false })
    (hworker : w.workers[i]? = some { sink := sink, chan := old.async, state := .waiting })
    (hfresh : old.async < w.next)
    (hok : ∀ h x, (w.writers sink).fails h x = false) :
    (Initialize w writer asyncFlag bufferingSize).defaultLogger =
        some { synch := writer, async := w.next, mutex := w.next, asyncFlag := asyncFlag,
               level := w.next } ∧
      (Initialize w writer asyncFlag bufferingSize).chans w.next =
        { buf := [], cap := bufferingSize, closed := false } ∧
      (Initialize w writer asyncFlag bufferingSize).levels w.next = InfoLvl ∧
      (Initialize w writer asyncFlag bufferingSize).chans old.async =
        { buf := lines, cap := c, closed := true } ∧
      (Initialize w writer asyncFlag bufferingSize).writers = w.writers ∧
      ((runWorker (Initialize w writer asyncFlag bufferingSize) i).writers sink).attempts =
        (w.writers sink).attempts ++ lines ∧
      (runWorker (Initialize w writer asyncFlag bufferingSize) i).chans old.async =
        { buf := [], cap := c, closed := true } ∧
      (runWorker (Initialize w writer asyncFlag bufferingSize) i).workers[i]? =
        some { sink := sink, chan := old.async, state := .drained } ∧
      (runWorker (Initialize w writer asyncFlag bufferingSize) i).defaultLogger =
        (Initialize w writer asyncFlag bufferingSize).defaultLogger ∧
      (runWorker (Initialize w writer asyncFlag bufferingSize) i).chans w.next =
        { buf := [], cap := bufferingSize, closed := false } ∧
      (runWorker (Initialize w writer asyncFlag bufferingSize) i).levels w.next = InfoLvl := by
  have hne : old.async ≠ w.next := Nat.ne_of_lt hfresh
  have hclosed : (w.chans old.async).closed = false := by rw [hchan]
  have hi : i < w.workers.length := by
    rcases Nat.lt_or_ge i w.workers.length with h | h
    · exact h
    · rw [List.getElem?_eq_none h] at hworker
      exact absurd hworker (by simp)
  have hchans : (Initialize w writer asyncFlag bufferingSize).chans =
      Function.update
        (Function.update w.chans old.async { buf := lines, cap := c, closed := true })
        w.next { buf := [], cap := bufferingSize, closed := false } := by
    unfold Initialize
    simp only [hdef, World.close, hclosed, Bool.false_eq_true, if_false, World.install,
      World.construct, hchan]
  have hworkers : (Initialize w writer asyncFlag bufferingSize).workers =
      w.workers ++ [{ sink := writer, chan := w.next, state := .waiting }] := by
    unfold Initialize
    simp only [hdef, World.close, hclosed, Bool.false_eq_true, if_false, World.install,
      World.construct]
  have hlevels : (Initialize w writer asyncFlag bufferingSize).levels =
      Function.update w.levels w.next InfoLvl := by
    unfold Initialize
    simp only [hdef, World.close, hclosed, Bool.false_eq_true, if_false, World.install,
      World.construct]
  have hwriters : (Initialize w writer asyncFlag bufferingSize).writers = w.writers := by
    unfold Initialize
    simp only [hdef, World.close, hclosed, Bool.false_eq_true, if_false, World.install,
      World.construct]
  have hdefault : (Initialize w writer asyncFlag bufferingSize).defaultLogger =
      some { synch := writer, async := w.next, mutex := w.next, asyncFlag := asyncFlag,
             level := w.next } := by
    unfold Initialize
    simp only [hdef, World.close, hclosed, Bool.false_eq_true, if_false, World.install,
      World.construct]
  have hw1 : (Initialize w writer asyncFlag bufferingSize).workers[i]? =
      some { sink := sink, chan := old.async, state := .waiting } := by
    rw [hworkers, List.getElem?_append_left hi]
    exact hworker
  have hc1 : (Initialize w writer asyncFlag bufferingSize).chans old.async =
      { buf := lines, cap := c, closed := true } := by
    rw [hchans]
    simp [Function.update_apply, hne]
  have hhand : (Initialize w writer asyncFlag bufferingSize).handOver old.async =
      Initialize w writer asyncFlag bufferingSize := by
    unfold World.handOver
    split
    · rw [if_neg]
      rintro ⟨_, hcl⟩
      rw [hc1] at hcl
      exact Bool.noConfusion hcl
    · rfl
  have hrun : runWorker (Initialize w writer asyncFlag bufferingSize) i =
      { Initialize w writer asyncFlag bufferingSize with
          writers := Function.update w.writers sink
            { w.writers sink with attempts := (w.writers sink).attempts ++ lines }
          chans := Function.update (Initialize w writer asyncFlag bufferingSize).chans
            old.async { buf := [], cap := c, closed := true }
          workers := (Initialize w writer asyncFlag bufferingSize).workers.set i
            { sink := sink, chan := old.async, state := .drained } } := by
    unfold runWorker
    rw [hw1]
    simp only [WorkerState.terminated, Bool.false_eq_true, if_false, hhand, hc1, hwriters,
      (asyncLogging_all_closed (w.writers sink) lines c hok)]
  refine ⟨hdefault, by rw [hchans]; simp, by rw [hlevels]; simp, hc1, hwriters,
    ?_, ?_, ?_, ?_, ?_, ?_⟩
  · rw [hrun]; simp
  · rw [hrun]; simp
  · rw [hrun]
    simp only
    rw [List.getElem?_set_self]
    rw [hworkers]
    simp only [List.length_append]
    omega
  · rw [hrun]
  · rw [hrun]
    simp only
    rw [hchans]
    simp [Function.update_apply, hne.symm]
  · rw [hrun]
    simp only
    rw [hlevels]
    simp

/-- Witness of C9: the default logger is in async mode with two lines in its
channel when `Initialize(w3, false, 0)` is called; the old worker then
writes the two lines to the old sink. -/
theorem initialize_drains_previous_queue_witness :
    (busyWorld.defaultLogger = some busyLogger ∧
      busyWorld.chans busyLogger.async =
        { buf := ["2026/11/04 09:05:00.007 | main.go:12 | TRACE | 7 | one\n".toList,
                  "2026/11/04 09:05:00.007 | main.go:12 | TRACE | 7 | two 2\n".toList],
          cap := 4, closed := false } ∧
      busyWorld.workers[1]? = some { sink := 2, chan := busyLogger.async, state := .waiting } ∧
      busyLogger.async < busyWorld.next ∧
      (∀ h x, (busyWorld.writers 2).fails h x = false)) ∧
    ((runWorker (Initialize busyWorld 3 false 0) 1).writers 2).attempts =
      ["2026/11/04 09:05:00.007 | main.go:12 | TRACE | 7 | one\n".toList,
       "2026/11/04 09:05:00.007 | main.go:12 | TRACE | 7 | two 2\n".toList] ∧
    (runWorker (Initialize busyWorld 3 false 0) 1).workers[1]? =
      some { sink := 2, chan := 1, state := .drained } ∧
    (Initialize busyWorld 3 false 0).defaultLogger =
      some { synch := 3, async := 2, mutex := 2, asyncFlag := false, level := 2 } := by
  have h1 : busyWorld.defaultLogger = some busyLogger := by decide
  have h2 : busyWorld.chans busyLogger.async =
      { buf := ["2026/11/04 09:05:00.007 | main.go:12 | TRACE | 7 | one\n".toList,
                "2026/11/04 09:05:00.007 | main.go:12 | TRACE | 7 | two 2\n".toList],
        cap := 4, closed := false } := by decide
  have h3 : busyWorld.workers[1]? =
      some { sink := 2, chan := busyLogger.async, state := .waiting } := by decide
  have h4 : busyLogger.async < busyWorld.next := by decide
  have h5 : ∀ h x, (busyWorld.writers 2).fails h x = false := fun _ _ => rfl
  have h := initialize_drains_previous_queue busyWorld busyLogger 1 2 _ 4 3 false 0
    h1 h2 h3 h4 h5
  refine ⟨⟨h1, h2, h3, h4, h5⟩, ?_, ?_, ?_⟩
  · rw [h.2.2.2.2.2.1]; rfl
  · exact h.2.2.2.2.2.2.2.1
  · rw [h.1]; rfl

/-! ## The layout of a composed line -/

/-- The header format, character by character. -/
theorem headerFormat_eq : headerFormat =
    ['%', 's', ' ', '|', ' ', '%', 's', ':', '%', 'd', ' ', '|', ' ', '%', 's', ' ', '|', ' ',
     '%', 'd', ' ', '|', ' '] := by decide

/-- The time stamp format, character by character. -/
theorem timeStampFormat_eq : timeStampFormat =
    ['%', '0', '4', 'd', '/', '%', '0', '2', 'd', '/', '%', '0', '2', 'd', ' ',
     '%', '0', '2', 'd', ':', '%', '0', '2', 'd', ':', '%', '0', '2', 'd', '.',
     '%', '0', '3', 'd'] := by decide

/-- The state of `doPrintf` after the header format: the five fields are
printed and the next operand is the first one of the caller. -/
theorem scan_header (ts file lvl : Bytes) (line gid : Nat) (rest : List Arg) :
    headerFormat.foldl
        (Printer.step ([Arg.str ts, .str file, .int line, .str lvl, .uint64 gid] ++ rest))
        Printer.start =
      { buf := ts ++ " | ".toList ++ file ++ [':'] ++ natDigits line ++ " | ".toList ++ lvl ++
          " | ".toList ++ natDigits gid ++ " | ".toList,
        argNum := 5, reordered := false, mode := .text, exact := true } := by
  rw [headerFormat_eq]
  simp [Printer.step, Printer.start, Printer.verb, printArg, unmodelledMark, fmtInteger]

/-- The time stamp format on seven natural numbers: each is padded with
zeros to its width. -/
theorem sprintf_timeStamp (y mo d h mi s ms : Nat) :
    Sprintf timeStampFormat [.int y, .int mo, .int d, .int h, .int mi, .int s, .int ms] =
      zeroPad 4 y ++ ['/'] ++ zeroPad 2 mo ++ ['/'] ++ zeroPad 2 d ++ [' '] ++
        zeroPad 2 h ++ [':'] ++ zeroPad 2 mi ++ [':'] ++ zeroPad 2 s ++ ['.'] ++
        zeroPad 3 ms := by
  have hn : ∀ n : Nat, ¬ ((n : Int) < 0) := fun n => by omega
  unfold Sprintf doPrintf scan zeroPad
  rw [timeStampFormat_eq]
  simp [Printer.step, Printer.start, Printer.verb, printArg, unmodelledMark, fmtInteger,
    Printer.finish, Char.isDigit, hn]

/-- The time stamp is `YYYY/MM/DD hh:mm:ss.mmm`, each field padded with
zeros. -/
theorem timeStamp_eq (now : Clock) :
    timeStamp now =
      zeroPad 4 now.year ++ ['/'] ++ zeroPad 2 now.month ++ ['/'] ++
        zeroPad 2 now.day ++ [' '] ++ zeroPad 2 now.hour ++ [':'] ++
        zeroPad 2 now.min ++ [':'] ++ zeroPad 2 now.sec ++ ['.'] ++
        zeroPad 3 (now.nanosecond / 1000000) :=
  sprintf_timeStamp now.year now.month now.day now.hour now.min now.sec
    (now.nanosecond / 1000000)

/-- The flag `reordered` is never cleared by a character. -/
theorem step_reordered (a : List Arg) (p : Printer) (c : Char)
    (h : (p.step a c).reordered = false) : p.reordered = false := by
  cases hp : p.reordered with
  | false => rfl
  | true =>
    rw [← h]
    unfold Printer.step Printer.verb Printer.giveUp
    split <;> split_ifs <;> (try split) <;> (try split_ifs) <;> (try simp_all)
    split <;> simp_all

/-- The flag `reordered` is never cleared by a run. -/
theorem foldl_reordered (a : List Arg) (cs : List Char) :
    ∀ p : Printer, (cs.foldl (Printer.step a) p).reordered = false → p.reordered = false := by
  induction cs with
  | nil => intro p h; exact h
  | cons c cs ih =>
    intro p h
    exact step_reordered a p c (ih _ h)

/-- A verb keeps the two runs in step. -/
theorem verb_sim (M P : List Arg) (hM : M.length = 5) (H : Bytes) (p q : Printer)
    (z : Bool) (w : Option Nat) (c : Char) (h : Sim H p q) :
    Sim H (p.verb P z w true c) (q.verb (M ++ P) z w true c) := by
  have hl : (M ++ P)[q.argNum]? = P[p.argNum]? := by
    rw [h.argNum, List.getElem?_append_right (by omega)]
    simp [hM]
  unfold Printer.verb
  rw [hl]
  by_cases hc : c = '%'
  · simp only [hc, if_true]
    exact ⟨by simp [h.buf], h.argNum, h.reordered, rfl, by simp [h.exact], rfl⟩
  · simp only [hc, if_false, Bool.true_eq_false]
    cases P[p.argNum]? with
    | none => exact ⟨by simp [h.buf], h.argNum, h.reordered, rfl, h.exact, rfl⟩
    | some arg =>
      exact ⟨by simp [h.buf], by simp [h.argNum], h.reordered, rfl, by simp [h.exact], rfl⟩

/-- Leaving the fragment keeps the two runs in step. -/
theorem giveUp_sim (H : Bytes) (p q : Printer) (h : Sim H p q) : Sim H p.giveUp q.giveUp :=
  ⟨h.buf, h.argNum, h.reordered, rfl, rfl, rfl⟩

/-- A character that opens no argument index keeps the two runs in step. -/
theorem step_sim (M P : List Arg) (hM : M.length = 5) (H : Bytes) (p q : Printer) (c : Char)
    (h : Sim H p q) (hr : (p.step P c).reordered = false) :
    Sim H (p.step P c) (q.step (M ++ P) c) := by
  have hq := h.mode
  have hplain := h.plain
  unfold Printer.step at hr ⊢
  rw [hq]
  cases hm : p.mode with
  | text =>
    simp only
    split_ifs
    · exact ⟨h.buf, h.argNum, h.reordered, rfl, h.exact, rfl⟩
    · exact ⟨by simp [h.buf], h.argNum, h.reordered, hq.trans hm ▸ rfl, h.exact,
        by simp [hm, Mode.plain]⟩
  | flags zero =>
    simp only [hm] at hr
    simp only
    split_ifs at hr ⊢
    · exact ⟨h.buf, h.argNum, h.reordered, rfl, h.exact, rfl⟩
    · exact ⟨h.buf, h.argNum, h.reordered, rfl, h.exact, rfl⟩
    · exact giveUp_sim H p q h
    · exact verb_sim M P hM H p q _ _ c h
  | width zero wid =>
    simp only
    split_ifs
    · exact giveUp_sim H p q h
    · exact ⟨h.buf, h.argNum, h.reordered, rfl, h.exact, rfl⟩
    · exact giveUp_sim H p q h
    · exact verb_sim M P hM H p q _ _ c h
  | index zero n => rw [hm] at hplain; simp [Mode.plain] at hplain
  | indexed zero good => rw [hm] at hplain; simp [Mode.plain] at hplain

/-- A template without argument index keeps the two runs in step. -/
theorem foldl_sim (M P : List Arg) (hM : M.length = 5) (H : Bytes) (cs : List Char) :
    ∀ p q : Printer, Sim H p q → (cs.foldl (Printer.step P) p).reordered = false →
      Sim H (cs.foldl (Printer.step P) p) (cs.foldl (Printer.step (M ++ P)) q) := by
  induction cs with
  | nil => intro p q h _; exact h
  | cons c cs ih =>
    intro p q h hr
    simp only [List.foldl_cons] at hr ⊢
    exact ih _ _ (step_sim M P hM H p q c h (foldl_reordered P cs _ hr)) hr

/-- The header of the format contract is what the header format prints. -/
theorem lineHeader_eq (levelNames : LevelNames) (env : Ambient) (level : Nat) :
    lineHeader levelNames env level =
      timeStamp env.now ++ " | ".toList ++ shortFileName env.caller ++ [':'] ++
        natDigits env.caller.line ++ " | ".toList ++ levelName levelNames level ++
        " | ".toList ++ natDigits env.gid ++ " | ".toList := by
  unfold lineHeader
  rw [timeStamp_eq]

/-- A character of literal text is copied to the output. -/
theorem step_text (a : List Arg) (p : Printer) (c : Char) (hm : p.mode = .text)
    (hc : c ≠ '%') : p.step a c = { p with buf := p.buf ++ [c] } := by
  unfold Printer.step
  rw [hm]
  simp only [hc, if_false]

/-- The end of `doPrintf` adds nothing when the format ends outside a
directive and an argument index was used or no operand is left over. -/
theorem finish_text (a : List Arg) (p : Printer) (hm : p.mode = .text)
    (h : p.reordered = true ∨ a.length ≤ p.argNum) : p.finish a = p := by
  unfold Printer.finish
  simp only [hm, if_true]
  rw [if_neg]
  rintro ⟨h1, h2⟩
  rcases h with h | h
  · rw [h1] at h; exact Bool.false_ne_true h
  · omega

/-- C5: the code at three failing inputs. The composer joins the header
format, the template and `"\n"` into one format and puts its five fields in
front of the operands of the caller, so the template is not interpolated on
its own. With an explicit argument index (`Info("%[1]v", "me")`) the template
prints the time stamp, not the operand of the caller; with an operand left
over (`Info("hello", 3)`) the line ends in `%!(EXTRA int=3)` and the newline
comes before it; with a template that ends in `%` (`Info("100%")`) the
newline is taken as the verb. In none of the three cases the line is the
header, the template interpolated with the operands of the caller, and a
newline as last byte. -/
theorem composed_line_misplaced_newline :
    (loggingLineComposer startWorld.levelNames sampleEnv "hello".toList InfoLvl [.int 3] =
        "2026/11/04 09:05:00.007 | main.go:12 | INFO | 7 | hello\n%!(EXTRA int=3)".toList ∧
      (loggingLineComposer startWorld.levelNames sampleEnv "hello".toList InfoLvl
        [.int 3]).getLast? = some ')' ∧
      Sprintf "hello".toList [.int 3] = "hello%!(EXTRA int=3)".toList ∧
      plainCall (headerFormat ++ "hello".toList ++ ['\n'])
        (realParameters startWorld.levelNames sampleEnv InfoLvl [.int 3]) = false ∧
      (doPrintf (headerFormat ++ "hello".toList ++ ['\n'])
        (realParameters startWorld.levelNames sampleEnv InfoLvl [.int 3])).exact = true) ∧
    (loggingLineComposer startWorld.levelNames sampleEnv "%[1]v".toList InfoLvl
          [.str "me".toList] =
        "2026/11/04 09:05:00.007 | main.go:12 | INFO | 7 | 2026/11/04 09:05:00.007\n".toList ∧
      Sprintf "%[1]v".toList [.str "me".toList] = "me".toList) ∧
    (loggingLineComposer startWorld.levelNames sampleEnv "100%".toList InfoLvl [] =
        "2026/11/04 09:05:00.007 | main.go:12 | INFO | 7 | 100%!\n(MISSING)".toList ∧
      Sprintf "100%".toList [] = "100%!(NOVERB)".toList) := by
  decide

/-- Where the layout holds: for a level in `Trace..Fatal` and a template and
operands within the modelled fragment of `fmt` that use no explicit argument
index, do not stop inside a directive and leave no operand over,
`loggingLineComposer` returns the header
`YYYY/MM/DD hh:mm:ss.mmm | file:line | level name | goroutine id | `,
then the template interpolated with the operands of the caller, then a
newline as last byte; the level name is the entry of `levelNames` at the
level, and the joined format stays within the modelled fragment. -/
theorem loggingLineComposer_layout (levelNames : LevelNames) (env : Ambient) (format : Bytes)
    (level : Nat) (parameters : List Arg) (hlevel : level ≤ FatalLvl)
    (hcall : plainCall format parameters = true) :
    loggingLineComposer levelNames env format level parameters =
        lineHeader levelNames env level ++ Sprintf format parameters ++ ['\n'] ∧
      (loggingLineComposer levelNames env format level parameters).getLast? = some '\n' ∧
      levelName levelNames level = levelNames ⟨level, by unfold FatalLvl at hlevel; omega⟩ ∧
      (doPrintf (headerFormat ++ format ++ ['\n'])
        (realParameters levelNames env level parameters)).exact = true := by
  simp only [plainCall, Bool.and_eq_true, decide_eq_true_eq, Bool.not_eq_true'] at hcall
  obtain ⟨⟨⟨hexact, hmode⟩, hindex⟩, hargs⟩ := hcall
  unfold scan at hexact hmode hindex hargs
  -- the run over the template alone
  have hmsg : Sprintf format parameters =
      (format.foldl (Printer.step parameters) Printer.start).buf := by
    unfold Sprintf doPrintf scan Printer.finish
    simp [hmode, hindex, Nat.not_lt.mpr hargs]
  -- the run over the joined format
  have hsim := foldl_sim
    [Arg.str (timeStamp env.now), .str (shortFileName env.caller), .int env.caller.line,
      .str (levelName levelNames level), .uint64 env.gid] parameters rfl
    (timeStamp env.now ++ " | ".toList ++ shortFileName env.caller ++ [':'] ++
      natDigits env.caller.line ++ " | ".toList ++ levelName levelNames level ++
      " | ".toList ++ natDigits env.gid ++ " | ".toList)
    format Printer.start
    { buf := timeStamp env.now ++ " | ".toList ++ shortFileName env.caller ++ [':'] ++
        natDigits env.caller.line ++ " | ".toList ++ levelName levelNames level ++
        " | ".toList ++ natDigits env.gid ++ " | ".toList,
      argNum := 5, reordered := false, mode := .text, exact := true }
    ⟨by simp [Printer.start], rfl, rfl, rfl, rfl, rfl⟩ hindex
  have hrun : doPrintf (headerFormat ++ format ++ ['\n'])
      (realParameters levelNames env level parameters) =
      { buf := lineHeader levelNames env level ++ Sprintf format parameters ++ ['\n'],
        argNum := (format.foldl (Printer.step parameters) Printer.start).argNum + 5,
        reordered := false, mode := .text, exact := true } := by
    unfold doPrintf scan realParameters
    rw [List.foldl_append, List.foldl_append, scan_header]
    have hb := hsim.buf
    have ha := hsim.argNum
    have hr := hsim.reordered
    have hm := hsim.mode
    have he := hsim.exact
    rw [hindex] at hr
    rw [hmode] at hm
    rw [hexact] at he
    rw [← hmsg] at hb
    generalize List.foldl (Printer.step _)
      { buf := _, argNum := 5, reordered := false, mode := .text, exact := true } format = q
      at hb ha hr hm he
    simp only [List.foldl_cons, List.foldl_nil]
    rw [step_text _ q '\n' hm (by decide), finish_text]
    · show Printer.mk (q.buf ++ ['\n']) q.argNum q.reordered q.mode q.exact = _
      rw [hb, ha, hr, hm, he, lineHeader_eq]
    · exact hm
    · right
      show _ ≤ q.argNum
      rw [ha]
      simp only [List.length_append, List.length_cons, List.length_nil]
      omega
  have hline : loggingLineComposer levelNames env format level parameters =
      lineHeader levelNames env level ++ Sprintf format parameters ++ ['\n'] := by
    show (doPrintf (headerFormat ++ format ++ ['\n'])
      (realParameters levelNames env level parameters)).buf = _
    rw [hrun]
  refine ⟨hline, ?_, ?_, ?_⟩
  · rw [hline, List.getLast?_append]
    rfl
  · unfold levelName
    rw [dif_pos]
  · rw [hrun]

/-- The layout on `Warning("x=%d", 3)`. -/
theorem loggingLineComposer_layout_witness :
    (WarningLvl ≤ FatalLvl ∧ plainCall "x=%d".toList [.int 3] = true) ∧
    loggingLineComposer startWorld.levelNames sampleEnv "x=%d".toList WarningLvl [.int 3] =
      "2026/11/04 09:05:00.007 | main.go:12 | WARNING | 7 | x=3\n".toList := by
  refine ⟨⟨by decide, by decide⟩, ?_⟩
  rw [(loggingLineComposer_layout startWorld.levelNames sampleEnv "x=%d".toList WarningLvl
    [.int 3] (by decide) (by decide)).1]
  decide

/-! ## Invariants of the reachable states -/

/-- A send does not change which channels are closed. -/
theorem send_closed (w : World) (ch : Nat) (line : Bytes) (a : Nat) :
    ((w.send ch line).chans a).closed = (w.chans a).closed := by
  unfold World.send
  split
  · rfl
  · split
    · simp only [Function.update_apply]
      split
      · subst_vars; rfl
      · rfl
    · rfl

/-- The method `logLine`, called in a running process, keeps the
invariant. -/
theorem logLine_sound (l : logger) (w : World) (line : Bytes) (h : w.Sound)
    (hrun : w.status = .running) : (l.logLine w line).Sound := by
  have hfree : ∀ m, w.locked m = false := h.free (by rw [hrun]; rfl)
  unfold logger.logLine
  by_cases hf : l.asyncFlag = true
  · rw [if_pos hf]
    refine ⟨?_, ?_⟩
    · intro _ m
      have : (w.send l.async line).locked = w.locked := by
        unfold World.send
        split
        · rfl
        · split <;> rfl
      rw [this]
      exact hfree m
    · intro d hd
      rw [send_closed]
      have hd2 : w.defaultLogger = some d := by
        unfold World.send at hd
        split at hd
        · exact hd
        · split at hd <;> exact hd
      have := h.defaultOpen d hd2
      refine ⟨this.1, ?_⟩
      unfold World.send
      split
      · exact this.2
      · split <;> exact this.2
  · rw [if_neg hf]
    by_cases hlock : w.locked l.mutex = true
    · rw [if_pos hlock]
      exact ⟨fun hs => by simp [Status.alive] at hs, h.defaultOpen⟩
    · rw [if_neg hlock]
      refine ⟨?_, h.defaultOpen⟩
      intro _ m
      simp only [World.write]
      rw [update_lock_unlock _ _ (hfree l.mutex)]
      exact hfree m

/-- The six emitting methods keep the invariant. -/
theorem logger_log_sound (l : logger) (op : Op) (w : World) (env : Ambient) (format : Bytes)
    (parameters : List Arg) (h : w.Sound) (hrun : w.status = .running) :
    (l.log op w env format parameters).Sound := by
  rw [logger_log_eq]
  split
  · exact logLine_sound l w _ h hrun
  · exact h

/-- The method `Fatal` keeps the invariant: the process no longer runs. -/
theorem fatal_sound (l : logger) (w : World) (env : Ambient) (format : Bytes)
    (parameters : List Arg) (h : w.Sound) : (l.Fatal w env format parameters).Sound := by
  unfold logger.Fatal
  simp only
  split
  · exact ⟨fun hs => by simp [Status.alive] at hs, h.defaultOpen⟩
  · exact ⟨fun hs => by simp [Status.alive] at hs, h.defaultOpen⟩

/-- The construction of a logger keeps the invariant. -/
theorem construct_sound (w : World) (writer : Nat) (asyncFlag : Bool) (bufferingSize : Nat)
    (h : w.Sound) : (w.construct writer asyncFlag bufferingSize).1.Sound := by
  unfold World.construct
  refine ⟨?_, ?_⟩
  · intro hs m
    simp only [Function.update_apply]
    split
    · rfl
    · exact h.free hs m
  · intro d hd
    have := h.defaultOpen d hd
    simp only [Function.update_apply]
    have hne : d.async ≠ w.next := Nat.ne_of_lt this.2
    simp only [hne, if_false]
    exact ⟨this.1, Nat.lt_succ_of_lt this.2⟩

/-- The function `Initialize` keeps the invariant: the new default logger
has a new, open channel. -/
theorem initialize_sound (w : World) (writer : Nat) (asyncFlag : Bool) (bufferingSize : Nat)
    (h : w.Sound) : (Initialize w writer asyncFlag bufferingSize).Sound := by
  have hfresh : ∀ v : World, (v.status.alive = true → ∀ m, m ≠ v.next → v.locked m = false) →
      (v.install writer asyncFlag bufferingSize).Sound := by
    intro v hv
    unfold World.install World.construct
    refine ⟨?_, ?_⟩
    · intro hs m
      simp only [Function.update_apply]
      split
      · rfl
      · rename_i hm
        exact hv hs m hm
    · intro d hd
      simp only [Option.some.injEq] at hd
      subst hd
      simp
  unfold Initialize
  cases hd : w.defaultLogger with
  | none =>
    simp only
    exact hfresh w (fun hs m _ => h.free hs m)
  | some old =>
    simp only [World.close, (h.defaultOpen old hd).1, Bool.false_eq_true, if_false]
    apply hfresh
    intro hs m _
    apply h.free _ m
    simp only at hs
    cases hst : w.status with
    | running => rfl
    | sending c line => rfl
    | exited code => rw [hst] at hs; simp [Status.alive] at hs
    | panicked => rw [hst] at hs; simp [Status.alive] at hs
    | blocked => rw [hst] at hs; simp [Status.alive] at hs

/-- A receive keeps the invariant. -/
theorem handOver_sound (w : World) (ch : Nat) (h : w.Sound) : (w.handOver ch).Sound := by
  unfold World.handOver
  split
  · rename_i c line hst
    split
    · refine ⟨fun _ => h.free (by rw [hst]; rfl), ?_⟩
      intro d hd
      have := h.defaultOpen d hd
      refine ⟨?_, this.2⟩
      simp only [Function.update_apply]
      split
      · rename_i heq
        show (w.chans _).closed = false
        rw [← heq]
        exact this.1
      · exact this.1
    · exact h
  · exact h

/-- A turn of a worker keeps the invariant. -/
theorem runWorker_sound (w : World) (i : Nat) (h : w.Sound) : (runWorker w i).Sound := by
  unfold runWorker
  split
  · exact h
  · split
    · exact h
    · rename_i k _ _
      have hv := handOver_sound w k.chan h
      refine ⟨hv.free, ?_⟩
      intro d hd
      have := hv.defaultOpen d hd
      refine ⟨?_, this.2⟩
      simp only [asyncLogging, Function.update_apply]
      split
      · rename_i heq
        have h1 := this.1
        rw [heq] at h1
        exact h1
      · exact this.1

/-- A function of the package keeps the invariant if the method does. -/
theorem onDefault_sound (w : World) (k : logger → World) (h : w.Sound)
    (hk : ∀ l, (k l).Sound) : (w.onDefault k).Sound := by
  unfold World.onDefault
  split
  · exact hk _
  · exact ⟨fun hs => by simp [Status.alive] at hs, h.defaultOpen⟩

/-- Every call keeps the invariant. -/
theorem call_sound (w : World) (c : Call) (h : w.Sound) : (call w c).Sound := by
  unfold call
  split
  · rename_i hrun
    cases c with
    | log l op env format parameters =>
      exact logger_log_sound l op w env format parameters h hrun
    | fatal l env format parameters => exact fatal_sound l w env format parameters h
    | setLevel l n => exact ⟨h.free, h.defaultOpen⟩
    | pkgLog op env format parameters =>
      cases hd : w.defaultLogger with
      | none =>
        simp only [log_of_no_default op w env format parameters hd]
        exact ⟨fun hs => by simp [Status.alive] at hs, h.defaultOpen⟩
      | some l =>
        simp only [log_eq_default op w l env format parameters hd]
        exact logger_log_sound l op w env format parameters h hrun
    | pkgFatal env format parameters =>
      exact onDefault_sound w _ h (fun l => fatal_sound l w env format parameters h)
    | pkgSetLevel n =>
      exact onDefault_sound w _ h (fun l => ⟨h.free, h.defaultOpen⟩)
    | setLevelName level name =>
      simp only [SetLevelName]
      split
      · exact h
      · exact ⟨h.free, h.defaultOpen⟩
    | newLogger writer asyncFlag bufferingSize =>
      exact construct_sound w writer asyncFlag bufferingSize h
    | replaceDefault writer asyncFlag bufferingSize =>
      exact initialize_sound w writer asyncFlag bufferingSize h
    | worker i => exact runWorker_sound w i h
  · split
    · exact runWorker_sound w _ h
    · exact h

/-- Every sequence of calls keeps the invariant. -/
theorem run_sound (calls : List Call) : ∀ w : World, w.Sound → (run w calls).Sound := by
  induction calls with
  | nil => intro w h; exact h
  | cons c rest ih => intro w h; exact ih _ (call_sound w c h)

/-- The invariant holds after the package initialisation. -/
theorem init_sound (ws : Nat → Writer) : (init (World.boot ws)).Sound := by
  unfold init
  exact initialize_sound _ _ _ _ ⟨fun _ _ => rfl, fun l hl => by simp [World.boot] at hl⟩

/-- In every state a process reaches from its start, whatever calls it
makes, no mutex is held while it runs and the channel of the default logger
is open: the conditions under which the logging calls are stated hold for
the default logger. -/
theorem reachable_sound (ws : Nat → Writer) (calls : List Call) :
    (run (init (World.boot ws)) calls).Sound :=
  run_sound calls _ (init_sound ws)

/-- Every world has the same shape as itself. -/
theorem sameShape_refl (w : World) : w.sameShape w := ⟨fun _ => rfl, rfl, rfl⟩

/-- A channel kept in a world is kept in any world of the same shape. -/
theorem keeps_of_sameShape (a : Nat) (w v : World) (hf : w.sameShape v) (h : w.Keeps a) :
    v.Keeps a :=
  ⟨by rw [hf.1]; exact h.isOpen, by rw [hf.2.1]; exact h.allocated,
   by rw [hf.2.2]; exact h.notDefault⟩

/-- The method `logLine` closes no channel, allocates nothing and leaves the
default logger. -/
theorem logLine_sameShape (l : logger) (w : World) (line : Bytes) :
    w.sameShape (l.logLine w line) := by
  unfold logger.logLine
  split
  · refine ⟨fun a => send_closed w _ line a, ?_, ?_⟩ <;>
      (unfold World.send; split <;> (try split) <;> rfl)
  · split
    · exact ⟨fun _ => rfl, rfl, rfl⟩
    · exact ⟨fun _ => rfl, rfl, rfl⟩

/-- The six emitting methods close no channel. -/
theorem logger_log_sameShape (l : logger) (op : Op) (w : World) (env : Ambient)
    (format : Bytes) (parameters : List Arg) :
    w.sameShape (l.log op w env format parameters) := by
  rw [logger_log_eq]
  split
  · exact logLine_sameShape l w _
  · exact sameShape_refl w

/-- The method `Fatal` closes no channel. -/
theorem fatal_sameShape (l : logger) (w : World) (env : Ambient) (format : Bytes)
    (parameters : List Arg) : w.sameShape (l.Fatal w env format parameters) := by
  unfold logger.Fatal
  simp only
  split <;> exact ⟨fun _ => rfl, rfl, rfl⟩

/-- A function of the package closes no channel if the method closes none. -/
theorem onDefault_sameShape (w : World) (k : logger → World)
    (hk : ∀ l, w.sameShape (k l)) : w.sameShape (w.onDefault k) := by
  unfold World.onDefault
  split
  · exact hk _
  · exact ⟨fun _ => rfl, rfl, rfl⟩

/-- A receive closes no channel. -/
theorem handOver_sameShape (w : World) (ch : Nat) : w.sameShape (w.handOver ch) := by
  unfold World.handOver
  split
  · split
    · refine ⟨?_, rfl, rfl⟩
      intro a
      simp only [Function.update_apply]
      split
      · rename_i heq
        rw [heq]
      · rfl
    · exact sameShape_refl w
  · exact sameShape_refl w

/-- A turn of a worker closes no channel. -/
theorem runWorker_sameShape (w : World) (i : Nat) : w.sameShape (runWorker w i) := by
  unfold runWorker
  split
  · exact sameShape_refl w
  · split
    · exact sameShape_refl w
    · rename_i k _ _
      have hv := handOver_sameShape w k.chan
      refine ⟨?_, hv.2.1, hv.2.2⟩
      intro a
      rw [← hv.1 a]
      simp only [asyncLogging, Function.update_apply]
      split
      · rename_i heq
        rw [heq]
      · rfl

/-- The construction of a logger keeps the channels allocated before. -/
theorem construct_keeps (a : Nat) (w : World) (writer : Nat) (asyncFlag : Bool)
    (bufferingSize : Nat) (h : w.Keeps a) :
    (w.construct writer asyncFlag bufferingSize).1.Keeps a := by
  have hne : a ≠ w.next := Nat.ne_of_lt h.allocated
  unfold World.construct
  exact ⟨by simp [Function.update_apply, hne, h.isOpen], Nat.lt_succ_of_lt h.allocated,
    h.notDefault⟩

/-- The function `Initialize` closes the channel of the default logger only. -/
theorem initialize_keeps (a : Nat) (w : World) (writer : Nat) (asyncFlag : Bool)
    (bufferingSize : Nat) (h : w.Keeps a) :
    (Initialize w writer asyncFlag bufferingSize).Keeps a := by
  have hne : a ≠ w.next := Nat.ne_of_lt h.allocated
  unfold Initialize
  cases hd : w.defaultLogger with
  | none =>
    simp only [World.install, World.construct]
    refine ⟨by simp [Function.update_apply, hne, h.isOpen], Nat.lt_succ_of_lt h.allocated, ?_⟩
    intro l hl
    simp only [Option.some.injEq] at hl
    subst hl
    exact hne.symm
  | some old =>
    have hold : old.async ≠ a := h.notDefault old hd
    simp only [World.close]
    by_cases hc : (w.chans old.async).closed = true
    · simp only [hc, if_true]
      exact ⟨h.isOpen, h.allocated, by simpa [hd] using h.notDefault⟩
    · have hc2 : (w.chans old.async).closed = false := by simpa using hc
      simp only [hc2, Bool.false_eq_true, if_false, World.install, World.construct]
      refine ⟨by simp [Function.update_apply, hne, hold.symm, h.isOpen],
        Nat.lt_succ_of_lt h.allocated, ?_⟩
      intro l hl
      simp only [Option.some.injEq] at hl
      subst hl
      exact hne.symm

/-- Every call keeps a channel that is not the one of the default logger. -/
theorem call_keeps (a : Nat) (w : World) (c : Call) (h : w.Keeps a) : (call w c).Keeps a := by
  unfold call
  split
  · cases c with
    | log l op env format parameters =>
      exact keeps_of_sameShape a w _ (logger_log_sameShape l op w env format parameters) h
    | fatal l env format parameters =>
      exact keeps_of_sameShape a w _ (fatal_sameShape l w env format parameters) h
    | setLevel l n => exact ⟨h.isOpen, h.allocated, h.notDefault⟩
    | pkgLog op env format parameters =>
      cases hd : w.defaultLogger with
      | none =>
        simp only [log_of_no_default op w env format parameters hd]
        exact ⟨h.isOpen, h.allocated, h.notDefault⟩
      | some l =>
        simp only [log_eq_default op w l env format parameters hd]
        exact keeps_of_sameShape a w _ (logger_log_sameShape l op w env format parameters) h
    | pkgFatal env format parameters =>
      exact keeps_of_sameShape a w _
        (onDefault_sameShape w _ (fun l => fatal_sameShape l w env format parameters)) h
    | pkgSetLevel n =>
      exact keeps_of_sameShape a w _
        (onDefault_sameShape w _ (fun l => ⟨fun _ => rfl, rfl, rfl⟩)) h
    | setLevelName level name =>
      simp only [SetLevelName]
      split
      · exact h
      · exact ⟨h.isOpen, h.allocated, h.notDefault⟩
    | newLogger writer asyncFlag bufferingSize =>
      exact construct_keeps a w writer asyncFlag bufferingSize h
    | replaceDefault writer asyncFlag bufferingSize =>
      exact initialize_keeps a w writer asyncFlag bufferingSize h
    | worker i => exact keeps_of_sameShape a w _ (runWorker_sameShape w i) h
  · split
    · exact keeps_of_sameShape a w _ (runWorker_sameShape w _) h
    · exact h

/-- Every sequence of calls keeps a channel that is not the one of the
default logger. -/
theorem run_keeps (a : Nat) (calls : List Call) :
    ∀ w : World, w.Keeps a → (run w calls).Keeps a := by
  induction calls with
  | nil => intro w h; exact h
  | cons c rest ih => intro w h; exact ih _ (call_keeps a w c h)

/-- The channel of a logger returned by `NewLogger` is open and stays open
whatever the process does afterwards: only `Initialize` closes a channel,
and only the one of the default logger. -/
theorem newLogger_channel_stays_open (w : World) (writer : Nat) (asyncFlag : Bool)
    (bufferingSize : Nat) (calls : List Call) (h : w.Sound) :
    ((run (NewLogger w writer asyncFlag bufferingSize).1 calls).chans
      (NewLogger w writer asyncFlag bufferingSize).2.async).closed = false := by
  apply (run_keeps _ calls _ _).isOpen
  unfold NewLogger World.construct
  refine ⟨by simp, by simp, ?_⟩
  intro l hl
  exact Nat.ne_of_lt (h.defaultOpen l hl).2

end Logger
